import Mathlib

/-!
Verification development for the pptx-generation repository.

The development shallowly embeds the parts of the source that the claims
talk about:

* `src/SlideBuilder.py`: the per-slide shape cache (`_build_shape_cache`,
  `_get_shape`), the field writers (`_set_text`, `_set_table_cell`) and the
  filler procedures `fill_slide_type_69`, `fill_slide_type_81` and
  `fill_slide_type_107`, plus the slide-copy loop `copy_slides`.
* `src/slide.py`: the deck-assembly controller `_build_slide`.
* `src/Summarise.py`: the trailing-comma normalisation
  `re.sub(r',(\s*[}\]])', r'\1', text)` applied to the model response before
  `json.loads`.

Slides are modelled as lists of shapes, a presentation as a list of slides,
and the COM layer (PowerPoint) as explicit state passing.  Python strings
are Lean `String`s (ASCII payloads; the upstream prompt mandates ASCII).
Fallible operations return `Except`/`Option`.
-/

/-- ASCII lower-casing of a character, as Python `str.lower` acts on the
ASCII shape names appearing in the source. -/
def lowerChar (c : Char) : Char :=
  if 'A' ≤ c ∧ c ≤ 'Z' then Char.ofNat (c.toNat + 32) else c

/-- ASCII lower-casing of a string (model of Python `str.lower()`). -/
def lowerStr (s : String) : String :=
  ⟨s.data.map lowerChar⟩

/-- A PowerPoint shape: a name, a text frame (flag plus current text) and a
table (flag plus rows of cell texts).  This carries exactly the attributes
the embedded code reads or writes (`Name`, `HasTextFrame`,
`TextFrame.TextRange.Text`, `HasTable`, `Table.Cell(r, c)`). -/
structure Shape where
  name : String
  hasTextFrame : Bool
  text : String
  hasTable : Bool
  table : List (List String)
deriving DecidableEq, Repr

/-- A slide is its shape collection in stable iteration order. -/
abbrev Slide := List Shape

/-- Model of `_build_shape_cache`'s loop body: the Python dict
`self._shape_cache` as a function from (lowercased) name to the index of
the shape reference stored under it; a later insertion with the same key
overwrites an earlier one, exactly as `self._shape_cache[shape.Name.lower()]
= shape` does. -/
def dictInsert (m : String → Option Nat) (k : String) (v : Nat) :
    String → Option Nat :=
  fun q => if q = k then some v else m q

/-- The fold of `_build_shape_cache` over the slide's shapes, carrying the
index of the next shape to be inserted. -/
def buildCacheAux (m : String → Option Nat) (i : Nat) :
    List Shape → (String → Option Nat)
  | [] => m
  | sh :: rest => buildCacheAux (dictInsert m (lowerStr sh.name) i) (i + 1) rest

/-- `_build_shape_cache`: index every shape of the slide by its lowercased
name (shape references are modelled as positions in the slide's shape
list). -/
def buildShapeCache (shapes : Slide) : String → Option Nat :=
  buildCacheAux (fun _ => none) 0 shapes

/-- `_get_shape`: case-insensitive lookup in the per-slide cache. -/
def getShape (shapes : Slide) (name : String) : Option Nat :=
  buildShapeCache shapes (lowerStr name)

/-- `_set_text`: resolve the shape by name; if found and it has a text
frame, replace its whole text; otherwise do nothing. -/
def setText (slide : Slide) (name : String) (t : String) : Slide :=
  match getShape slide name with
  | none => slide
  | some i =>
    match slide[i]? with
    | none => slide
    | some sh => if sh.hasTextFrame then slide.set i { sh with text := t } else slide

/-- `_set_table_cell`: resolve the shape; if it is a table and the 1-indexed
cell exists, set that cell's text; any failure (no shape, not a table,
out-of-range cell) is swallowed as a no-op, mirroring the `try/except`. -/
def setTableCell (slide : Slide) (name : String) (row col : Nat) (t : String) :
    Slide :=
  match getShape slide name with
  | none => slide
  | some i =>
    match slide[i]? with
    | none => slide
    | some sh =>
      if sh.hasTable then
        match sh.table[row - 1]? with
        | none => slide
        | some r =>
          match r[col - 1]? with
          | none => slide
          | some _ =>
            slide.set i { sh with table := sh.table.set (row - 1) (r.set (col - 1) t) }
      else slide

/-- Read a shape's current text through the same cache the writers use. -/
def readText (slide : Slide) (name : String) : Option String :=
  match getShape slide name with
  | none => none
  | some i => (slide[i]?).map Shape.text

/-- Read a table cell (1-indexed row/column) through the cache. -/
def readCell (slide : Slide) (name : String) (row col : Nat) : Option String :=
  match getShape slide name with
  | none => none
  | some i =>
    match slide[i]? with
    | none => none
    | some sh =>
      match sh.table[row - 1]? with
      | none => none
      | some r => r[col - 1]?

/-- Python `str.splitlines` on the line terminators `\r\n`, `\n` and `\r`,
building up the current line in reverse in `acc`: a terminator emits the
pending line, and at the end of input a nonempty pending line is emitted
(so there is never a trailing empty line). -/
def splitlinesAux : List Char → List Char → List String
  | [], acc => if acc.isEmpty then [] else [⟨acc.reverse⟩]
  | '\r' :: '\n' :: rest, acc => (⟨acc.reverse⟩ : String) :: splitlinesAux rest []
  | '\n' :: rest, acc => (⟨acc.reverse⟩ : String) :: splitlinesAux rest []
  | '\r' :: rest, acc => (⟨acc.reverse⟩ : String) :: splitlinesAux rest []
  | c :: rest, acc => splitlinesAux rest (c :: acc)

/-- Python `str.splitlines`. -/
def splitlines (s : String) : List String :=
  splitlinesAux s.data []

/-- The fan-out loop `for i in range(len(points)): self._set_text(zones[i],
points[i])` of `fill_slide_type_69`, walking the zone list and the line
list in lockstep; running out of zones while lines remain is Python's
`IndexError` on `zones[i]`. -/
def fanLoop : Slide → List String → List String → Except String Slide
  | s, _, [] => .ok s
  | _, [], _ :: _ => .error "list index out of range"
  | s, z :: zs, p :: ps => fanLoop (setText s z p) zs ps

/-- First zone list of `fill_slide_type_69`. -/
def zones69a : List String :=
  ["ZoneTexte 77", "ZoneTexte 78", "ZoneTexte 80", "ZoneTexte 86", "ZoneTexte 86-2"]

/-- Second zone list of `fill_slide_type_69`. -/
def zones69b : List String :=
  ["ZoneTexte 47", "ZoneTexte 48", "ZoneTexte 49", "ZoneTexte 50", "ZoneTexte 50-2"]

/-- `SlideBuilder.fill_slide_type_69`: title, the two guarded plain slots,
then the two fan-out blocks over fixed five-element zone lists.  The slot
map is modelled as a partial function (Python dict); `"k" in content`
becomes `content "k" = some v`. -/
def fill_slide_type_69 (slide : Slide) (title : String)
    (content : String → Option String) : Except String Slide :=
  let s := setText slide "Title 5" title
  let s := match content "pro" with
    | some v => setText s "ZoneTexte 71" v
    | none => s
  let s := match content "con" with
    | some v => setText s "ZoneTexte 72" v
    | none => s
  match (match content "detail_1" with
         | some v => fanLoop s zones69a (splitlines v)
         | none => .ok s) with
  | .error m => .error m
  | .ok s =>
    match content "detail_2" with
    | some v => fanLoop s zones69b (splitlines v)
    | none => .ok s

/-- `SlideBuilder.fill_slide_type_81`: title, then five composite rectangle
writes.  Each message is accumulated from the (optional) step and
description slots and then written unconditionally; the source's last block
for `Rectangle 39` re-reads `step_4`/`description_4`, which is reproduced
verbatim. -/
def fill_slide_type_81 (slide : Slide) (title : String)
    (content : String → Option String) : Slide :=
  let s := setText slide "Titre 1" title
  let msg := ""
  let msg := match content "step_1" with
    | some v => msg ++ v ++ "\n"
    | none => msg
  let msg := match content "description_1" with
    | some v => msg ++ v
    | none => msg
  let s := setText s "Rectangle 35" msg
  let msg := ""
  let msg := match content "step_2" with
    | some v => msg ++ v ++ "\n"
    | none => msg
  let msg := match content "description_2" with
    | some v => msg ++ v
    | none => msg
  let s := setText s "Rectangle 36" msg
  let msg := ""
  let msg := match content "step_3" with
    | some v => msg ++ v ++ "\n"
    | none => msg
  let msg := match content "description_3" with
    | some v => msg ++ v
    | none => msg
  let s := setText s "Rectangle 37" msg
  let msg := ""
  let msg := match content "step_4" with
    | some v => msg ++ v ++ "\n"
    | none => msg
  let msg := match content "description_4" with
    | some v => msg ++ v
    | none => msg
  let s := setText s "Rectangle 38" msg
  let msg := ""
  let msg := match content "step_4" with
    | some v => msg ++ v ++ "\n"
    | none => msg
  let msg := match content "description_4" with
    | some v => msg ++ v
    | none => msg
  setText s "Rectangle 39" msg

/-- `SlideBuilder.fill_slide_type_107`: title, the two numbered composite
table cells (rows 2 and 3 of column 1 of `Tableau 18`), then four guarded
single-slot cells. -/
def fill_slide_type_107 (slide : Slide) (title : String)
    (content : String → Option String) : Slide :=
  let s := setText slide "Titre 1" title
  let msg := ""
  let msg := match content "idea_1" with
    | some v => msg ++ "1. " ++ v ++ "\n"
    | none => msg
  let msg := match content "description_1" with
    | some v => msg ++ v
    | none => msg
  let s := setTableCell s "Tableau 18" 2 1 msg
  let msg := ""
  let msg := match content "idea_2" with
    | some v => msg ++ "2. " ++ v ++ "\n"
    | none => msg
  let msg := match content "description_2" with
    | some v => msg ++ v
    | none => msg
  let s := setTableCell s "Tableau 18" 3 1 msg
  let s := match content "pro_1" with
    | some v => setTableCell s "Tableau 18" 2 2 v
    | none => s
  let s := match content "con_1" with
    | some v => setTableCell s "Tableau 18" 2 3 v
    | none => s
  let s := match content "pro_2" with
    | some v => setTableCell s "Tableau 18" 3 2 v
    | none => s
  match content "con_2" with
  | some v => setTableCell s "Tableau 18" 3 3 v
  | none => s

/-- A plain text shape with a given name and template text. -/
def textShape (n t : String) : Shape :=
  { name := n, hasTextFrame := true, text := t, hasTable := false, table := [] }

/-- A concrete library slide for template 69: title, the two plain zones and
the ten fan-out zones, each shipping with its own placeholder text. -/
def slide69 : Slide :=
  [textShape "Title 5" "tmpl-title",
   textShape "ZoneTexte 71" "tmpl-pro",
   textShape "ZoneTexte 72" "tmpl-con",
   textShape "ZoneTexte 77" "tmpl-d1a",
   textShape "ZoneTexte 78" "tmpl-d1b",
   textShape "ZoneTexte 80" "tmpl-d1c",
   textShape "ZoneTexte 86" "tmpl-d1d",
   textShape "ZoneTexte 86-2" "tmpl-d1e",
   textShape "ZoneTexte 47" "tmpl-d2a",
   textShape "ZoneTexte 48" "tmpl-d2b",
   textShape "ZoneTexte 49" "tmpl-d2c",
   textShape "ZoneTexte 50" "tmpl-d2d",
   textShape "ZoneTexte 50-2" "tmpl-d2e"]

/-- A concrete library slide for template 107: a title shape and the
`Tableau 18` table with three rows and three columns of placeholder
texts. -/
def slide107 : Slide :=
  [textShape "Titre 1" "tmpl-title",
   { name := "Tableau 18", hasTextFrame := false, text := "",
     hasTable := true,
     table := [["h1", "h2", "h3"],
               ["tmpl-21", "tmpl-22", "tmpl-23"],
               ["tmpl-31", "tmpl-32", "tmpl-33"]] }]

/-- A concrete library slide for template 81: a title shape and the five
rectangles, each with placeholder text. -/
def slide81 : Slide :=
  [textShape "Titre 1" "tmpl-title",
   textShape "Rectangle 35" "tmpl-r35",
   textShape "Rectangle 36" "tmpl-r36",
   textShape "Rectangle 37" "tmpl-r37",
   textShape "Rectangle 38" "tmpl-r38",
   textShape "Rectangle 39" "tmpl-r39"]

/-!
Deck-assembly controller (`src/slide.py`, `_build_slide`) and the slide-copy
loop (`SlideBuilder.copy_slides`).  The content plan arrives as parsed JSON
(a Python dict); a dict key that may be absent is modelled as an `Option`
field, and accessing a missing key is the corresponding `KeyError`.  The
deck under construction is a list of slides; slides are abstract here (type
parameter `S`), fillers are an abstract dispatch table mirroring the
`hasattr(builder, f"fill_slide_type_{id}")` lookup; a filler acts on the one
slide at its 1-based position and may fail (as e.g. `fill_slide_type_69`
can).  Disk saves are not modelled; `BState.deckCreated` records that
`create_blank` has run (the output file exists). -/

/-- One entry of the content plan's `slides` list, with each dict key
optional. -/
structure RawEntry where
  slide_index : Option Int
  slide_title : Option String
  slots : Option (String → Option String)

/-- The whole content plan dict. -/
structure RawPlan where
  presentation_title : Option String
  slides : Option (List RawEntry)

/-- Observable controller state: whether the output deck has been created
(`create_blank` ran) and the deck's current slides. -/
structure BState (S : Type) where
  deckCreated : Bool
  deck : List S
deriving DecidableEq, Repr

/-- The dispatch table: for a template id, the filler method if
`fill_slide_type_{id}` exists. -/
abbrev Fillers (S : Type) :=
  Int → Option (S → String → (String → Option String) → Except String S)

/-- `library_pres.Slides(idx + 1)` for a 0-based `idx`: the library slide at
that position, or a host error when out of range. -/
def libGet {S : Type} (lib : List S) (i : Int) : Option S :=
  if 0 ≤ i then lib[i.toNat]? else none

/-- The list comprehension `[slide["slide_index"] - 1 for slide in slides]`:
fails (KeyError) if any entry is missing `slide_index`; fully evaluated
before any slide is copied. -/
def collectIdx : List RawEntry → Option (List Int)
  | [] => some []
  | e :: rest =>
    match e.slide_index with
    | none => none
    | some i => (collectIdx rest).map (fun l => (i - 1) :: l)

/-- `copy_slides`: paste each requested library slide at the end of the
output deck, in order; an out-of-range index aborts with the deck as pasted
so far. -/
def copySlides {S : Type} (lib : List S) (deck : List S) :
    List Int → Except (String × List S) (List S)
  | [] => .ok deck
  | i :: rest =>
    match libGet lib i with
    | none => .error ("slide index out of range", deck)
    | some s => copySlides lib (deck ++ [s]) rest

/-- The fill loop of `_build_slide` (lines 38-48): for the `i`-th plan entry
(0-based), re-read `slide_index`, look up `fill_slide_type_{id}` (aborting
with `Unknown Slide Type: {id}` if absent), read `slide_title` and `slots`,
and run the filler on output position `i + 2` (1-based), i.e. deck index
`i + 1`.  Any failure carries the deck as it stands. -/
def fillLoop {S : Type} (fillers : Fillers S) :
    List RawEntry → Nat → List S → Except (String × List S) (List S)
  | [], _, deck => .ok deck
  | e :: rest, i, deck =>
    match e.slide_index with
    | none => .error ("KeyError: slide_index", deck)
    | some id =>
      match fillers id with
      | none => .error ("Unknown Slide Type: " ++ toString id, deck)
      | some f =>
        match e.slide_title with
        | none => .error ("KeyError: slide_title", deck)
        | some title =>
          match e.slots with
          | none => .error ("KeyError: slots", deck)
          | some slots =>
            match deck[i + 1]? with
            | none => .error ("slide index out of range", deck)
            | some sl =>
              match f sl title slots with
              | .error m => .error (m, deck)
              | .ok sl2 => fillLoop fillers rest (i + 1) (deck.set (i + 1) sl2)

/-- `_build_slide`: read the two top-level plan keys, create the blank
output deck, compute `[0] + [slide_index - 1 ...]`, copy those library
slides, fill the title slide (position 1) with the presentation title, then
run the fill loop.  Errors carry the controller state at the point of
failure. -/
def buildSlide {S : Type} (lib : List S) (fillers : Fillers S)
    (titleFiller : S → String → S) (data : RawPlan) :
    Except (String × BState S) (BState S) :=
  match data.presentation_title with
  | none => .error ("KeyError: presentation_title", ⟨false, []⟩)
  | some ptitle =>
    match data.slides with
    | none => .error ("KeyError: slides", ⟨false, []⟩)
    | some entries =>
      match collectIdx entries with
      | none => .error ("KeyError: slide_index", ⟨true, []⟩)
      | some idxs =>
        match copySlides lib [] (0 :: idxs) with
        | .error (m, d) => .error (m, ⟨true, d⟩)
        | .ok deck =>
          match deck[0]? with
          | none => .error ("slide index out of range", ⟨true, deck⟩)
          | some s0 =>
            match fillLoop fillers entries 0 (deck.set 0 (titleFiller s0 ptitle)) with
            | .error (m, d) => .error (m, ⟨true, d⟩)
            | .ok deck2 => .ok ⟨true, deck2⟩

/-- Deck the specification's words demand for one plan entry: the library
slide at position `slide_index - 1`, filled by that template's filler with
the entry's title and slots.  (This definition follows the claim's wording
and is compared against `buildSlide`, which follows the source.) -/
def fillEntry {S : Type} (lib : List S) (fillers : Fillers S) (e : RawEntry) :
    Option S :=
  match e.slide_index with
  | none => none
  | some id =>
    match libGet lib (id - 1) with
    | none => none
    | some tpl =>
      match fillers id with
      | none => none
      | some f =>
        match e.slide_title with
        | none => none
        | some t =>
          match e.slots with
          | none => none
          | some m =>
            match f tpl t m with
            | .ok s => some s
            | .error _ => none

/-- Spec-side fill of every plan entry, in plan order. -/
def fillAllEntries {S : Type} (lib : List S) (fillers : Fillers S) :
    List RawEntry → Option (List S)
  | [] => some []
  | e :: rest =>
    match fillEntry lib fillers e, fillAllEntries lib fillers rest with
    | some s, some l => some (s :: l)
    | _, _ => none

/-- Spec-side assembled deck (claim C1's wording): the title template
(library position 0) filled with the presentation title, followed by each
plan entry's filled template, in plan order. -/
def plannedDeck {S : Type} (lib : List S) (fillers : Fillers S)
    (titleFiller : S → String → S) (pt : String) (entries : List RawEntry) :
    Option (List S) :=
  match libGet lib 0 with
  | none => none
  | some s0 =>
    match fillAllEntries lib fillers entries with
    | none => none
    | some rest => some (titleFiller s0 pt :: rest)

/-- Fill plan entries against an already-given list of copied template
slides (used to relate the fill loop to the spec-side deck). -/
def fillAllZip {S : Type} (fillers : Fillers S) :
    List RawEntry → List S → Option (List S)
  | [], [] => some []
  | e :: rest, tpl :: tpls =>
    match e.slide_index with
    | none => none
    | some id =>
      match fillers id with
      | none => none
      | some f =>
        match e.slide_title with
        | none => none
        | some t =>
          match e.slots with
          | none => none
          | some m =>
            match f tpl t m with
            | .error _ => none
            | .ok s =>
              match fillAllZip fillers rest tpls with
              | none => none
              | some l => some (s :: l)
  | _ :: _, [] => none
  | [], _ :: _ => none

/-- The library template each plan entry copies (position
`slide_index - 1`), for all entries. -/
def idxTemplates {S : Type} (lib : List S) : List RawEntry → Option (List S)
  | [] => some []
  | e :: rest =>
    match e.slide_index with
    | none => none
    | some id =>
      match libGet lib (id - 1) with
      | none => none
      | some tpl =>
        match idxTemplates lib rest with
        | none => none
        | some l => some (tpl :: l)

/-!
Content-plan loading (`src/Summarise.py` line 79-81 and `src/slide.py`
line 13): the model response text is normalised by
`re.sub(r',(\s*[}\]])', r'\1', text)` and then fed to `json.loads`.

`removeTrailingCommas` embeds the substitution.  Since every match of the
pattern begins with `,` and the retained `\s*[}\]]` contains no comma, no
new match can begin inside the retained part of a replaced match, so the
left-to-right scan below (drop the comma, keep scanning from the retained
characters) produces exactly re.sub's non-overlapping replacement.

`json.loads` is modelled by a recursive-descent parser over a JSON value
grammar (null/true/false, unsigned decimal integers, strings with the
single-character escapes, arrays, objects); `\uXXXX` escapes, fractional or
signed numbers, and duplicate-key collapsing are outside the modelled
fragment (content plans are ASCII title/slot strings and 1-based integer
ids).  Objects parse to ordered field lists.
-/

/-- Python `\s` on the ASCII range (the payloads the claims quantify over
are ASCII, per the upstream prompt's ASCII-only rule). -/
def isWsPy (c : Char) : Bool :=
  c = ' ' || c = '\t' || c = '\n' || c = '\r' || c = '\x0b' || c = '\x0c'

/-- A closing brace or bracket (the character class `[}\]]`). -/
def isCloser (c : Char) : Bool :=
  c = '\x7d' || c = ']'

/-- Does the text begin with `\s*[}\]]`?  (The regex lookahead after a
comma.) -/
def wsThenCloser : List Char → Bool
  | [] => false
  | c :: rest =>
    if isCloser c then true
    else if isWsPy c then wsThenCloser rest
    else false

/-- `re.sub(r',(\s*[}\]])', r'\1', text)`: delete every comma that is
followed by optional whitespace and a closing brace/bracket. -/
def removeTrailingCommas : List Char → List Char
  | [] => []
  | c :: rest =>
    if c = ',' && wsThenCloser rest then removeTrailingCommas rest
    else c :: removeTrailingCommas rest

/-- JSON whitespace skipped by `json.loads` between tokens. -/
def isWs4 (c : Char) : Bool :=
  c = ' ' || c = '\t' || c = '\n' || c = '\r'

/-- Skip JSON inter-token whitespace. -/
def skipWs : List Char → List Char
  | [] => []
  | c :: r => if isWs4 c then skipWs r else c :: r

mutual
/-- A parsed JSON value (strict grammar, the modelled `json.loads`
fragment). -/
inductive Json where
  | null : Json
  | bool : Bool → Json
  | num : Nat → Json
  | str : List Char → Json
  | arr : JsonItems → Json
  | obj : JsonFields → Json
/-- The elements of a JSON array, in order. -/
inductive JsonItems where
  | nil : JsonItems
  | cons : Json → JsonItems → JsonItems
/-- The fields of a JSON object, in order. -/
inductive JsonFields where
  | nil : JsonFields
  | cons : List Char → Json → JsonFields → JsonFields
end

mutual
/-- A JSON value in the lenient producer grammar: as `Json`, but every
nonempty array or object additionally records whether a trailing comma
follows its last element. -/
inductive LJson where
  | null : LJson
  | bool : Bool → LJson
  | num : Nat → LJson
  | str : List Char → LJson
  | arr : LJsonItems → Bool → LJson
  | obj : LJsonFields → Bool → LJson
/-- Elements of a lenient array. -/
inductive LJsonItems where
  | nil : LJsonItems
  | cons : LJson → LJsonItems → LJsonItems
/-- Fields of a lenient object. -/
inductive LJsonFields where
  | nil : LJsonFields
  | cons : List Char → LJson → LJsonFields → LJsonFields
end

/-- The decimal digit characters. -/
def digitChar : Nat → Char
  | 0 => '0' | 1 => '1' | 2 => '2' | 3 => '3' | 4 => '4'
  | 5 => '5' | 6 => '6' | 7 => '7' | 8 => '8' | _ => '9'

/-- Decimal printing of a natural number, most significant digit first;
`fuel ≥ n + 1` always suffices (division by ten at each step). -/
def natDigitsAux : Nat → Nat → List Char → List Char
  | 0, _, acc => acc
  | fuel + 1, n, acc =>
    if n < 10 then digitChar n :: acc
    else natDigitsAux fuel (n / 10) (digitChar (n % 10) :: acc)

/-- Canonical decimal digits of a natural number. -/
def natDigits (n : Nat) : List Char :=
  natDigitsAux (n + 1) n []

/-- Greedy decimal scan with an accumulator (the number scanner of
`json.loads` on the modelled fragment). -/
def digitsAux : Nat → List Char → Nat × List Char
  | acc, c :: r =>
    if c.isDigit then digitsAux (acc * 10 + (c.toNat - 48)) r else (acc, c :: r)
  | acc, [] => (acc, [])

/-- Parse a nonempty run of decimal digits. -/
def parseDigits : List Char → Option (Nat × List Char)
  | c :: r => if c.isDigit then some (digitsAux 0 (c :: r)) else none
  | [] => none

/-- The single-character string escapes of JSON, decoded. -/
def unesc (c : Char) : Option Char :=
  if c = '"' then some '"'
  else if c = '\\' then some '\\'
  else if c = '/' then some '/'
  else if c = 'n' then some '\n'
  else if c = 't' then some '\t'
  else if c = 'r' then some '\r'
  else if c = 'b' then some '\x08'
  else if c = 'f' then some '\x0c'
  else none

/-- Parse the body of a string literal after the opening quote, up to and
including the closing quote; raw control characters are rejected (strict
`json.loads`). -/
def parseStringBody : List Char → Option (List Char × List Char)
  | [] => none
  | c :: rest =>
    if c = '"' then some ([], rest)
    else if c = '\\' then
      match rest with
      | [] => none
      | e :: rest2 =>
        match unesc e with
        | none => none
        | some d =>
          match parseStringBody rest2 with
          | none => none
          | some (s, r) => some (d :: s, r)
    else if c.toNat < 32 then none
    else
      match parseStringBody rest with
      | none => none
      | some (s, r) => some (c :: s, r)

mutual
/-- Parse one JSON value (strict grammar), fuel-bounded. -/
def parseVal : Nat → List Char → Option (Json × List Char)
  | 0, _ => none
  | fuel + 1, s =>
    match skipWs s with
    | [] => none
    | c :: r =>
      if c.isDigit then
        match parseDigits (c :: r) with
        | none => none
        | some (n, rest) => some (.num n, rest)
      else if c = '"' then
        match parseStringBody r with
        | none => none
        | some (cs, rest) => some (.str cs, rest)
      else if c = '[' then
        match skipWs r with
        | [] => none
        | c2 :: r2 =>
          if c2 = ']' then some (.arr .nil, r2)
          else
            match parseItems fuel (c2 :: r2) with
            | none => none
            | some (xs, rest) => some (.arr xs, rest)
      else if c = '\x7b' then
        match skipWs r with
        | [] => none
        | c2 :: r2 =>
          if c2 = '\x7d' then some (.obj .nil, r2)
          else
            match parseFields fuel (c2 :: r2) with
            | none => none
            | some (kvs, rest) => some (.obj kvs, rest)
      else
        match c :: r with
        | 'n' :: 'u' :: 'l' :: 'l' :: rest => some (.null, rest)
        | 't' :: 'r' :: 'u' :: 'e' :: rest => some (.bool true, rest)
        | 'f' :: 'a' :: 'l' :: 's' :: 'e' :: rest => some (.bool false, rest)
        | _ => none

/-- Parse the elements of a nonempty array, including the closing
bracket; a comma must be followed by another element (strict: no trailing
comma). -/
def parseItems : Nat → List Char → Option (JsonItems × List Char)
  | 0, _ => none
  | fuel + 1, s =>
    match parseVal fuel s with
    | none => none
    | some (v, r) =>
      match skipWs r with
      | ',' :: r2 =>
        match parseItems fuel r2 with
        | none => none
        | some (vs, rest) => some (.cons v vs, rest)
      | ']' :: r2 => some (.cons v .nil, r2)
      | _ => none

/-- Parse the fields of a nonempty object, including the closing brace
(strict: no trailing comma). -/
def parseFields : Nat → List Char → Option (JsonFields × List Char)
  | 0, _ => none
  | fuel + 1, s =>
    match skipWs s with
    | '"' :: r =>
      match parseStringBody r with
      | none => none
      | some (k, r2) =>
        match skipWs r2 with
        | ':' :: r3 =>
          match parseVal fuel r3 with
          | none => none
          | some (v, r4) =>
            match skipWs r4 with
            | ',' :: r5 =>
              match parseFields fuel r5 with
              | none => none
              | some (kvs, rest) => some (.cons k v kvs, rest)
            | '\x7d' :: r5 => some (.cons k v .nil, r5)
            | _ => none
        | _ => none
    | _ => none
end

/-- `json.loads` on the modelled fragment: parse one value and require only
whitespace after it. -/
def parseJson (s : List Char) : Option Json :=
  match parseVal (s.length + 1) s with
  | none => none
  | some (v, r) => if skipWs r = [] then some v else none

/-- Escape one character for printing inside a string literal. -/
def escC (c : Char) : List Char :=
  if c = '"' then ['\\', '"']
  else if c = '\\' then ['\\', '\\']
  else if c = '\n' then ['\\', 'n']
  else if c = '\t' then ['\\', 't']
  else if c = '\r' then ['\\', 'r']
  else [c]

/-- Escape a whole string body. -/
def escStr : List Char → List Char
  | [] => []
  | c :: rest => escC c ++ escStr rest

mutual
/-- Print a strict JSON value canonically (no inter-token whitespace). -/
def printJ : Json → List Char
  | .null => "null".data
  | .bool true => "true".data
  | .bool false => "false".data
  | .num n => natDigits n
  | .str s => '"' :: (escStr s ++ ['"'])
  | .arr xs => '[' :: (printJItems xs ++ [']'])
  | .obj kvs => '\x7b' :: (printJFields kvs ++ ['\x7d'])
/-- Print array elements, comma-separated. -/
def printJItems : JsonItems → List Char
  | .nil => []
  | .cons x .nil => printJ x
  | .cons x (.cons y ys) => printJ x ++ ',' :: printJItems (.cons y ys)
/-- Print object fields, comma-separated. -/
def printJFields : JsonFields → List Char
  | .nil => []
  | .cons k v .nil => '"' :: (escStr k ++ '"' :: ':' :: printJ v)
  | .cons k v (.cons k2 v2 kvs) =>
    ('"' :: (escStr k ++ '"' :: ':' :: printJ v)) ++ ',' :: printJFields (.cons k2 v2 kvs)
end

mutual
/-- Print a lenient JSON value: as `printJ`, plus the trailing comma
immediately before the closing bracket/brace where the flag says so (the
flag is ignored on empty collections). -/
def printL : LJson → List Char
  | .null => "null".data
  | .bool true => "true".data
  | .bool false => "false".data
  | .num n => natDigits n
  | .str s => '"' :: (escStr s ++ ['"'])
  | .arr .nil _ => ['[', ']']
  | .arr (.cons x xs) t =>
    '[' :: (printLItems (.cons x xs) ++ ((if t then [','] else []) ++ [']']))
  | .obj .nil _ => ['\x7b', '\x7d']
  | .obj (.cons k v kvs) t =>
    '\x7b' :: (printLFields (.cons k v kvs) ++ ((if t then [','] else []) ++ ['\x7d']))
/-- Print lenient array elements, comma-separated. -/
def printLItems : LJsonItems → List Char
  | .nil => []
  | .cons x .nil => printL x
  | .cons x (.cons y ys) => printL x ++ ',' :: printLItems (.cons y ys)
/-- Print lenient object fields, comma-separated. -/
def printLFields : LJsonFields → List Char
  | .nil => []
  | .cons k v .nil => '"' :: (escStr k ++ '"' :: ':' :: printL v)
  | .cons k v (.cons k2 v2 kvs) =>
    ('"' :: (escStr k ++ '"' :: ':' :: printL v)) ++ ',' :: printLFields (.cons k2 v2 kvs)
end

/-- Does a string body begin with spaces followed by a closing
brace/bracket?  (What the regex lookahead can see from inside a printed
string literal before the closing quote blocks it: of the whitespace class
only a literal space survives printing unescaped.) -/
def contWsCloser : List Char → Bool
  | [] => false
  | c :: r =>
    if c = '\x7d' || c = ']' then true
    else if c = ' ' then contWsCloser r
    else false

/-- The normalisation's effect on a string body: commas followed (inside
the body) by spaces and a closing brace/bracket are deleted. -/
def mungeStr : List Char → List Char
  | [] => []
  | c :: r =>
    if c = ',' && contWsCloser r then mungeStr r
    else c :: mungeStr r

mutual
/-- The strict value a normalised lenient payload denotes: drop the
trailing-comma flags and apply `mungeStr` to every string body and key. -/
def mungeJ : LJson → Json
  | .null => .null
  | .bool b => .bool b
  | .num n => .num n
  | .str s => .str (mungeStr s)
  | .arr xs _ => .arr (mungeItems xs)
  | .obj kvs _ => .obj (mungeFields kvs)
/-- `mungeJ` on array elements. -/
def mungeItems : LJsonItems → JsonItems
  | .nil => .nil
  | .cons x xs => .cons (mungeJ x) (mungeItems xs)
/-- `mungeJ` on object fields. -/
def mungeFields : LJsonFields → JsonFields
  | .nil => .nil
  | .cons k v kvs => .cons (mungeStr k) (mungeJ v) (mungeFields kvs)
end

/-- A character that may appear in a modelled string body: printable ASCII,
or one of the three control characters the printer escapes. -/
def wfChar (c : Char) : Bool :=
  (32 ≤ c.toNat && c.toNat ≤ 126) || c = '\n' || c = '\t' || c = '\r'

/-- All characters of a string body are representable. -/
def wfStr : List Char → Bool
  | [] => true
  | c :: r => wfChar c && wfStr r

mutual
/-- Well-formedness of a strict value: every string body and key is
representable. -/
def wfJ : Json → Bool
  | .null => true
  | .bool _ => true
  | .num _ => true
  | .str s => wfStr s
  | .arr xs => wfJItems xs
  | .obj kvs => wfJFields kvs
/-- `wfJ` on array elements. -/
def wfJItems : JsonItems → Bool
  | .nil => true
  | .cons x xs => wfJ x && wfJItems xs
/-- `wfJ` on object fields. -/
def wfJFields : JsonFields → Bool
  | .nil => true
  | .cons k v kvs => wfStr k && wfJ v && wfJFields kvs
end

mutual
/-- Well-formedness of a lenient value. -/
def wfL : LJson → Bool
  | .null => true
  | .bool _ => true
  | .num _ => true
  | .str s => wfStr s
  | .arr xs _ => wfLItems xs
  | .obj kvs _ => wfLFields kvs
/-- `wfL` on array elements. -/
def wfLItems : LJsonItems → Bool
  | .nil => true
  | .cons x xs => wfL x && wfLItems xs
/-- `wfL` on object fields. -/
def wfLFields : LJsonFields → Bool
  | .nil => true
  | .cons k v kvs => wfStr k && wfL v && wfLFields kvs
end

mutual
/-- Fuel sufficient for `parseVal` to parse this value. -/
def sizeJ : Json → Nat
  | .arr xs => 1 + sizeItems xs
  | .obj kvs => 1 + sizeFields kvs
  | _ => 1
/-- Fuel sufficient for `parseItems` on these elements. -/
def sizeItems : JsonItems → Nat
  | .nil => 0
  | .cons x xs => 1 + max (sizeJ x) (sizeItems xs)
/-- Fuel sufficient for `parseFields` on these fields. -/
def sizeFields : JsonFields → Nat
  | .nil => 0
  | .cons _ v kvs => 1 + max (sizeJ v) (sizeFields kvs)
end

mutual
/-- Node-count measure on strict values (induction measure). -/
def sizeJN : Json → Nat
  | .null => 1
  | .bool _ => 1
  | .num _ => 1
  | .str _ => 1
  | .arr xs => 1 + sizeJNItems xs
  | .obj kvs => 1 + sizeJNFields kvs
/-- Node count of array elements. -/
def sizeJNItems : JsonItems → Nat
  | .nil => 0
  | .cons x xs => 1 + sizeJN x + sizeJNItems xs
/-- Node count of object fields. -/
def sizeJNFields : JsonFields → Nat
  | .nil => 0
  | .cons _ v kvs => 1 + sizeJN v + sizeJNFields kvs
end

mutual
/-- Node-count measure on lenient values (induction measure). -/
def sizeL : LJson → Nat
  | .null => 1
  | .bool _ => 1
  | .num _ => 1
  | .str _ => 1
  | .arr xs _ => 1 + sizeLItems xs
  | .obj kvs _ => 1 + sizeLFields kvs
/-- Node count of lenient array elements. -/
def sizeLItems : LJsonItems → Nat
  | .nil => 0
  | .cons x xs => 1 + sizeL x + sizeLItems xs
/-- Node count of lenient object fields. -/
def sizeLFields : LJsonFields → Nat
  | .nil => 0
  | .cons _ v kvs => 1 + sizeL v + sizeLFields kvs
end

/-- Accumulate a digit run into a number (the value `digitsAux` computes). -/
def foldDigits (acc : Nat) (ds : List Char) : Nat :=
  ds.foldl (fun a c => a * 10 + (c.toNat - 48)) acc

/-- The text does not continue with a digit (so a greedy number scan ends
exactly here). -/
def headNotDigit : List Char → Bool
  | [] => true
  | c :: _ => !c.isDigit

/-- Tail constraint for the printer/parser roundtrip: after a printed
number the rest must not start with a digit. -/
def tailOkB : Json → List Char → Bool
  | .num _, t => headNotDigit t
  | _, _ => true

/-- Look up every 0-based library index (the copy loop's source slides). -/
def mapLib {S : Type} (lib : List S) : List Int → Option (List S)
  | [] => some []
  | i :: rest =>
    match libGet lib i with
    | none => none
    | some s =>
      match mapLib lib rest with
      | none => none
      | some l => some (s :: l)

/-- A name resolves to a shape with a text frame (so `_set_text` on it
really writes). -/
def textTargetB (slide : Slide) (nm : String) : Bool :=
  match getShape slide nm with
  | none => false
  | some j =>
    match slide[j]? with
    | none => false
    | some sh => sh.hasTextFrame

/-- A slot map holding only `detail_1`. -/
def detailOnly (v : String) : String → Option String :=
  fun k => if k = "detail_1" then some v else none

/-! ## Theorems -/

theorem buildCacheAux_append (l1 l2 : List Shape) (m : String → Option Nat) (i : Nat) :
    buildCacheAux m i (l1 ++ l2) = buildCacheAux (buildCacheAux m i l1) (i + l1.length) l2 := by
  induction l1 generalizing m i with
  | nil => simp [buildCacheAux]
  | cons sh rest ih =>
    show buildCacheAux (dictInsert m (lowerStr sh.name) i) (i + 1) (rest ++ l2)
        = buildCacheAux (buildCacheAux (dictInsert m (lowerStr sh.name) i) (i + 1) rest)
            (i + (rest.length + 1)) l2
    rw [ih]
    have h1 : i + 1 + rest.length = i + (rest.length + 1) := by omega
    rw [h1]

theorem buildShapeCache_concat (l : List Shape) (sh : Shape) (q : String) :
    buildShapeCache (l ++ [sh]) q
      = if q = lowerStr sh.name then some l.length else buildShapeCache l q := by
  simp [buildShapeCache, buildCacheAux_append, buildCacheAux, dictInsert]

theorem getElem?_some_lt {α : Type} {l : List α} {i : Nat} {a : α}
    (h : l[i]? = some a) : i < l.length :=
  (List.getElem?_eq_some.mp h).1

/-- Claim C3 (amended): the Shape Locator resolves a name to the LAST shape
of the slide whose name matches case-insensitively — the dict built by
`_build_shape_cache` overwrites earlier entries with later ones.  The
returned index is a matching position with no matching position after
it. -/
theorem shape_cache_resolves_last_match (shapes : Slide) (name : String) (i : Nat) :
    getShape shapes name = some i ↔
      ((∃ sh, shapes[i]? = some sh ∧ lowerStr sh.name = lowerStr name) ∧
        ∀ j sh, i < j → shapes[j]? = some sh → lowerStr sh.name ≠ lowerStr name) := by
  induction shapes using List.reverseRecOn with
  | nil => simp [getShape, buildShapeCache, buildCacheAux]
  | append_singleton l sh ih =>
    unfold getShape
    rw [buildShapeCache_concat]
    by_cases hq : lowerStr name = lowerStr sh.name
    · rw [if_pos hq]
      constructor
      · rintro h
        injection h with h
        subst h
        refine ⟨⟨sh, List.getElem?_concat_length l sh, hq.symm⟩, ?_⟩
        intro j sh2 hj hget
        exfalso
        have : j < (l ++ [sh]).length := getElem?_some_lt hget
        simp at this
        omega
      · rintro ⟨⟨sh2, hget, _⟩, hafter⟩
        have hi : i < (l ++ [sh]).length := getElem?_some_lt hget
        simp at hi
        rcases Nat.lt_or_ge i l.length with hlt | hge
        · exact absurd hq.symm
            (hafter l.length sh hlt (List.getElem?_concat_length l sh))
        · have : i = l.length := by omega
          rw [this]
    · rw [if_neg hq]
      rw [show getShape l name = buildShapeCache l (lowerStr name) from rfl] at ih
      rw [ih]
      constructor
      · rintro ⟨⟨sh2, hget, hmatch⟩, hafter⟩
        have hi : i < l.length := getElem?_some_lt hget
        refine ⟨⟨sh2, ?_, hmatch⟩, ?_⟩
        · rwa [List.getElem?_append_left hi]
        · intro j sh3 hj hget3
          rcases Nat.lt_or_ge j l.length with hjl | hjr
          · rw [List.getElem?_append_left hjl] at hget3
            exact hafter j sh3 hj hget3
          · have hj2 : j < (l ++ [sh]).length := getElem?_some_lt hget3
            simp at hj2
            have hje : j = l.length := by omega
            subst hje
            rw [List.getElem?_concat_length] at hget3
            injection hget3 with hget3
            subst hget3
            exact fun h => hq h.symm
      · rintro ⟨⟨sh2, hget, hmatch⟩, hafter⟩
        have hi : i < (l ++ [sh]).length := getElem?_some_lt hget
        simp at hi
        have hil : i < l.length := by
          rcases Nat.lt_or_ge i l.length with h | h
          · exact h
          · exfalso
            have hie : i = l.length := by omega
            subst hie
            rw [List.getElem?_concat_length] at hget
            injection hget with hget
            subst hget
            exact hq hmatch.symm
        refine ⟨⟨sh2, ?_, hmatch⟩, ?_⟩
        · rwa [List.getElem?_append_left hil] at hget
        · intro j sh3 hj hget3
          have hjl : j < l.length := getElem?_some_lt hget3
          refine hafter j sh3 hj ?_
          rwa [List.getElem?_append_left hjl]

/-- Claim C3 (counterexample): with two shapes both named "dup"
(case-insensitively), `_get_shape` returns the SECOND (index 1), not the
first matching shape (index 0), although index 0 matches. -/
theorem shape_cache_returns_last_duplicate :
    getShape [textShape "Dup" "one", textShape "dup" "two"] "DUP" = some 1 ∧
      getShape [textShape "Dup" "one", textShape "dup" "two"] "DUP" ≠ some 0 ∧
      lowerStr (textShape "Dup" "one").name = lowerStr "DUP" := by
  refine ⟨by decide, by decide, by decide⟩

/-- Claim C2 (counterexample): in `fill_slide_type_107`, omitting both
`idea_1` and `description_1` does NOT leave the bound table cell at its
template text — the composite message is written unconditionally, so the
cell that shipped as "tmpl-21" ends up holding the empty string. -/
theorem omitted_slot_still_written_107 :
    readCell slide107 "Tableau 18" 2 1 = some "tmpl-21" ∧
      readCell (fill_slide_type_107 slide107 "T" (fun _ => none))
        "Tableau 18" 2 1 = some "" := by
  exact ⟨by decide, by decide⟩

/-- Claim C2 (amended): omission of a slot key bound to a guarded
single-slot write is a true no-op (e.g. `pro_1` in `fill_slide_type_107`),
but the composite fields are written unconditionally: when every slot
feeding the composite is absent, the bound shape receives the empty string
(the numbered cell of `fill_slide_type_107` and the step/description
rectangle of `fill_slide_type_81`). -/
theorem buildCacheAux_set (l : List Shape) (j : Nat) (m : String → Option Nat)
    (i : Nat) (sh sh' : Shape) (hj : l[j]? = some sh)
    (hname : lowerStr sh'.name = lowerStr sh.name) :
    buildCacheAux m i (l.set j sh') = buildCacheAux m i l := by
  induction l generalizing j m i with
  | nil => simp at hj
  | cons a rest ih =>
    cases j with
    | zero =>
      simp at hj
      subst hj
      show buildCacheAux (dictInsert m (lowerStr sh'.name) i) (i + 1) rest
          = buildCacheAux (dictInsert m (lowerStr a.name) i) (i + 1) rest
      rw [hname]
    | succ j =>
      simp at hj
      show buildCacheAux (dictInsert m (lowerStr a.name) i) (i + 1) (rest.set j sh')
          = buildCacheAux (dictInsert m (lowerStr a.name) i) (i + 1) rest
      exact ih j _ _ hj

theorem getShape_set (slide : Slide) (j : Nat) (sh sh' : Shape)
    (hj : slide[j]? = some sh) (hname : lowerStr sh'.name = lowerStr sh.name)
    (q : String) : getShape (slide.set j sh') q = getShape slide q := by
  unfold getShape buildShapeCache
  rw [buildCacheAux_set slide j _ _ sh sh' hj hname]

theorem buildCacheAux_found (l : List Shape) (m : String → Option Nat)
    (i0 : Nat) (q : String) (v : Nat) (h : buildCacheAux m i0 l q = some v) :
    (∃ j sh, l[j]? = some sh ∧ lowerStr sh.name = q ∧ v = i0 + j) ∨ m q = some v := by
  induction l generalizing m i0 with
  | nil => exact Or.inr h
  | cons a rest ih =>
    rcases ih _ _ h with ⟨j, sh, hj, hn, hv⟩ | hm
    · exact Or.inl ⟨j + 1, sh, by simpa using hj, hn, by omega⟩
    · unfold dictInsert at hm
      by_cases hq : q = lowerStr a.name
      · rw [if_pos hq] at hm
        injection hm with hm
        exact Or.inl ⟨0, a, by simp, hq.symm, by omega⟩
      · rw [if_neg hq] at hm
        exact Or.inr hm

theorem getShape_found (slide : Slide) (q : String) (i : Nat)
    (h : getShape slide q = some i) :
    ∃ sh, slide[i]? = some sh ∧ lowerStr sh.name = lowerStr q := by
  rcases buildCacheAux_found slide _ 0 _ i h with ⟨j, sh, hj, hn, hv⟩ | hm
  · have : i = j := by omega
    subst this
    exact ⟨sh, hj, hn⟩
  · exact absurd hm (by simp)

theorem getShape_inj (slide : Slide) (nm nm2 : String) (i j : Nat)
    (hne : lowerStr nm ≠ lowerStr nm2)
    (h1 : getShape slide nm = some i) (h2 : getShape slide nm2 = some j) :
    i ≠ j := by
  rintro rfl
  rcases getShape_found slide nm i h1 with ⟨sh, hg, hn⟩
  rcases getShape_found slide nm2 i h2 with ⟨sh2, hg2, hn2⟩
  rw [hg] at hg2
  injection hg2 with hg2
  subst hg2
  exact hne (hn ▸ hn2 ▸ rfl)

theorem readCell_setText (slide : Slide) (nm2 t nm : String) (r c : Nat) :
    readCell (setText slide nm2 t) nm r c = readCell slide nm r c := by
  unfold setText
  split
  · rfl
  · rename_i j hg2
    split
    · rfl
    · rename_i sh hj
      split
      · rename_i htf
        unfold readCell
        rw [getShape_set slide j sh { sh with text := t } hj rfl]
        cases hg : getShape slide nm with
        | none => rfl
        | some i =>
          dsimp only
          by_cases hij : i = j
          · subst hij
            have hlt : i < slide.length := getElem?_some_lt hj
            rw [List.getElem?_set_eq hlt, hj]
          · rw [List.getElem?_set_ne (fun h => hij h.symm)]
      · rfl

theorem readText_setText_ne (slide : Slide) (nm2 t nm : String)
    (hne : lowerStr nm ≠ lowerStr nm2) :
    readText (setText slide nm2 t) nm = readText slide nm := by
  unfold setText
  split
  · rfl
  · rename_i j hg2
    split
    · rfl
    · rename_i sh hj
      split
      · rename_i htf
        unfold readText
        rw [getShape_set slide j sh { sh with text := t } hj rfl]
        cases hg : getShape slide nm with
        | none => rfl
        | some i =>
          dsimp only
          have hij : i ≠ j := getShape_inj slide nm nm2 i j hne hg hg2
          rw [List.getElem?_set_ne (fun h => hij h.symm)]
      · rfl

theorem readCell_setTableCell_ne (slide : Slide) (nm : String) (r c r2 c2 : Nat)
    (t : String) (hcell : ¬(r2 - 1 = r - 1 ∧ c2 - 1 = c - 1)) :
    readCell (setTableCell slide nm r2 c2 t) nm r c = readCell slide nm r c := by
  unfold setTableCell
  split
  · rfl
  · rename_i i hg
    split
    · rfl
    · rename_i sh hi
      split
      · rename_i ht
        split
        · rfl
        · rename_i row hrow
          split
          · rfl
          · rename_i old hc2
            unfold readCell
            rw [getShape_set slide i sh
              { sh with table := sh.table.set (r2 - 1) (row.set (c2 - 1) t) } hi rfl]
            rw [hg]
            dsimp only
            have hlt : i < slide.length := getElem?_some_lt hi
            rw [List.getElem?_set_eq hlt, hi]
            dsimp only
            by_cases hr : r2 - 1 = r - 1
            · have hcne : c2 - 1 ≠ c - 1 := fun h => hcell ⟨hr, h⟩
              rw [hr] at hrow ⊢
              have hrlt : r - 1 < sh.table.length := getElem?_some_lt hrow
              rw [List.getElem?_set_eq hrlt, hrow]
              show (row.set (c2 - 1) t)[c - 1]? = row[c - 1]?
              exact List.getElem?_set_ne hcne
            · rw [List.getElem?_set_ne hr]
      · rfl

theorem setText_slide107_title (title : String) :
    setText slide107 "Titre 1" title
      = [{ name := "Titre 1", hasTextFrame := true, text := title,
           hasTable := false, table := [] },
         { name := "Tableau 18", hasTextFrame := false, text := "",
           hasTable := true,
           table := [["h1", "h2", "h3"],
                     ["tmpl-21", "tmpl-22", "tmpl-23"],
                     ["tmpl-31", "tmpl-32", "tmpl-33"]] }] := rfl

theorem read21_base107 (title : String) :
    readCell (setTableCell (setText slide107 "Titre 1" title) "Tableau 18" 2 1 "")
      "Tableau 18" 2 1 = some "" := by
  rw [setText_slide107_title]
  rfl

theorem read21_set31 (s : Slide) (t : String) :
    readCell (setTableCell s "Tableau 18" 3 1 t) "Tableau 18" 2 1
      = readCell s "Tableau 18" 2 1 :=
  readCell_setTableCell_ne s _ 2 1 3 1 t (by omega)

theorem read21_set22 (s : Slide) (t : String) :
    readCell (setTableCell s "Tableau 18" 2 2 t) "Tableau 18" 2 1
      = readCell s "Tableau 18" 2 1 :=
  readCell_setTableCell_ne s _ 2 1 2 2 t (by omega)

theorem read21_set23 (s : Slide) (t : String) :
    readCell (setTableCell s "Tableau 18" 2 3 t) "Tableau 18" 2 1
      = readCell s "Tableau 18" 2 1 :=
  readCell_setTableCell_ne s _ 2 1 2 3 t (by omega)

theorem read21_set32 (s : Slide) (t : String) :
    readCell (setTableCell s "Tableau 18" 3 2 t) "Tableau 18" 2 1
      = readCell s "Tableau 18" 2 1 :=
  readCell_setTableCell_ne s _ 2 1 3 2 t (by omega)

theorem read21_set33 (s : Slide) (t : String) :
    readCell (setTableCell s "Tableau 18" 3 3 t) "Tableau 18" 2 1
      = readCell s "Tableau 18" 2 1 :=
  readCell_setTableCell_ne s _ 2 1 3 3 t (by omega)

theorem read22_set21 (s : Slide) (t : String) :
    readCell (setTableCell s "Tableau 18" 2 1 t) "Tableau 18" 2 2
      = readCell s "Tableau 18" 2 2 :=
  readCell_setTableCell_ne s _ 2 2 2 1 t (by omega)

theorem read22_set31 (s : Slide) (t : String) :
    readCell (setTableCell s "Tableau 18" 3 1 t) "Tableau 18" 2 2
      = readCell s "Tableau 18" 2 2 :=
  readCell_setTableCell_ne s _ 2 2 3 1 t (by omega)

theorem read22_set23 (s : Slide) (t : String) :
    readCell (setTableCell s "Tableau 18" 2 3 t) "Tableau 18" 2 2
      = readCell s "Tableau 18" 2 2 :=
  readCell_setTableCell_ne s _ 2 2 2 3 t (by omega)

theorem read22_set32 (s : Slide) (t : String) :
    readCell (setTableCell s "Tableau 18" 3 2 t) "Tableau 18" 2 2
      = readCell s "Tableau 18" 2 2 :=
  readCell_setTableCell_ne s _ 2 2 3 2 t (by omega)

theorem read22_set33 (s : Slide) (t : String) :
    readCell (setTableCell s "Tableau 18" 3 3 t) "Tableau 18" 2 2
      = readCell s "Tableau 18" 2 2 :=
  readCell_setTableCell_ne s _ 2 2 3 3 t (by omega)

theorem read35_set36 (s : Slide) (t : String) :
    readText (setText s "Rectangle 36" t) "Rectangle 35"
      = readText s "Rectangle 35" :=
  readText_setText_ne s _ t _ (by decide)

theorem read35_set37 (s : Slide) (t : String) :
    readText (setText s "Rectangle 37" t) "Rectangle 35"
      = readText s "Rectangle 35" :=
  readText_setText_ne s _ t _ (by decide)

theorem read35_set38 (s : Slide) (t : String) :
    readText (setText s "Rectangle 38" t) "Rectangle 35"
      = readText s "Rectangle 35" :=
  readText_setText_ne s _ t _ (by decide)

theorem read35_set39 (s : Slide) (t : String) :
    readText (setText s "Rectangle 39" t) "Rectangle 35"
      = readText s "Rectangle 35" :=
  readText_setText_ne s _ t _ (by decide)

theorem read35_base81 (title : String) :
    readText (setText (setText slide81 "Titre 1" title) "Rectangle 35" "")
      "Rectangle 35" = some "" := by
  rw [show setText slide81 "Titre 1" title
      = [{ name := "Titre 1", hasTextFrame := true, text := title,
           hasTable := false, table := [] },
         textShape "Rectangle 35" "tmpl-r35", textShape "Rectangle 36" "tmpl-r36",
         textShape "Rectangle 37" "tmpl-r37", textShape "Rectangle 38" "tmpl-r38",
         textShape "Rectangle 39" "tmpl-r39"] from rfl]
  rfl

/-- Claim C2 (amended): omission of a slot key bound to a guarded
single-slot write is a true no-op (e.g. `pro_1` in `fill_slide_type_107`),
but the composite fields are written unconditionally: when every slot
feeding the composite is absent, the bound shape receives the empty string
(the numbered cell of `fill_slide_type_107` and the step/description
rectangle of `fill_slide_type_81`). -/
theorem composite_fillers_write_unconditionally
    (content : String → Option String) (title : String) :
    (content "idea_1" = none → content "description_1" = none →
      readCell (fill_slide_type_107 slide107 title content) "Tableau 18" 2 1 = some "") ∧
    (content "pro_1" = none →
      readCell (fill_slide_type_107 slide107 title content) "Tableau 18" 2 2
        = readCell slide107 "Tableau 18" 2 2) ∧
    (content "step_1" = none → content "description_1" = none →
      readText (fill_slide_type_81 slide81 title content) "Rectangle 35" = some "") := by
  refine ⟨fun hi hd => ?_, fun hp => ?_, fun hs hd => ?_⟩
  · simp only [fill_slide_type_107]
    rw [hi, hd]
    cases h1 : content "pro_1" <;> cases h2 : content "con_1" <;>
      cases h3 : content "pro_2" <;> cases h4 : content "con_2" <;>
      simp only [read21_set31, read21_set22, read21_set23, read21_set32,
        read21_set33, read21_base107]
  · simp only [fill_slide_type_107]
    rw [hp]
    cases h2 : content "con_1" <;> cases h3 : content "pro_2" <;>
      cases h4 : content "con_2" <;>
      simp only [read22_set21, read22_set31, read22_set23, read22_set32,
        read22_set33, readCell_setText]
  · simp only [fill_slide_type_81]
    rw [hs, hd]
    simp only [read35_set36, read35_set37, read35_set38, read35_set39,
      read35_base81]

/-- Claim C2 (witness for the amended theorem): on the empty slot map the
composite cell and rectangle are written with the empty string, and the
guarded `pro_1` cell keeps its template text. -/
theorem composite_fillers_write_unconditionally_witness :
    readCell (fill_slide_type_107 slide107 "T" (fun _ => none))
        "Tableau 18" 2 1 = some "" ∧
      readCell (fill_slide_type_107 slide107 "T" (fun _ => none)) "Tableau 18" 2 2
        = readCell slide107 "Tableau 18" 2 2 ∧
      readText (fill_slide_type_81 slide81 "T" (fun _ => none))
        "Rectangle 35" = some "" := by
  have h := composite_fillers_write_unconditionally (fun _ => none) "T"
  exact ⟨h.1 rfl rfl, h.2.1 rfl, h.2.2 rfl rfl⟩

/-- Claim C6: the numbered composite rule at ordinal 1 in
`fill_slide_type_107`, given `idea_1 = "Reduce cost"` and
`description_1 = "via automation"`, writes exactly
`"1. Reduce cost\nvia automation"` to its table cell: the ordinal "1. ",
the idea, one newline, the description, and no trailing newline. -/
theorem numbered_composite_text_107 :
    readCell (fill_slide_type_107 slide107 "T"
        (fun k => if k = "idea_1" then some "Reduce cost"
                  else if k = "description_1" then some "via automation"
                  else none))
      "Tableau 18" 2 1 = some "1. Reduce cost\nvia automation" := by
  decide

theorem getShape_setText (s : Slide) (nm t q : String) :
    getShape (setText s nm t) q = getShape s q := by
  unfold setText
  split
  · rfl
  · rename_i j hg
    split
    · rfl
    · rename_i sh hj
      split
      · exact getShape_set s j sh { sh with text := t } hj rfl q
      · rfl

theorem textTargetB_setText (s : Slide) (nm2 t nm : String) :
    textTargetB (setText s nm2 t) nm = textTargetB s nm := by
  unfold setText
  split
  · rfl
  · rename_i j hg2
    split
    · rfl
    · rename_i sh hj
      split
      · rename_i htf
        unfold textTargetB
        rw [getShape_set s j sh { sh with text := t } hj rfl]
        cases hg : getShape s nm with
        | none => rfl
        | some i =>
          dsimp only
          by_cases hij : i = j
          · subst hij
            rw [List.getElem?_set_eq (getElem?_some_lt hj), hj]
          · rw [List.getElem?_set_ne (fun h => hij h.symm)]
      · rfl

theorem readText_setText_self (s : Slide) (nm t : String)
    (h : textTargetB s nm = true) :
    readText (setText s nm t) nm = some t := by
  unfold textTargetB at h
  split at h
  · exact absurd h (by simp)
  · rename_i j hg
    split at h
    · exact absurd h (by simp)
    · rename_i sh hj
      unfold setText
      rw [hg]
      dsimp only
      rw [hj]
      dsimp only
      rw [if_pos h]
      unfold readText
      rw [getShape_set s j sh { sh with text := t } hj rfl, hg]
      dsimp only
      rw [List.getElem?_set_eq (getElem?_some_lt hj)]
      rfl

theorem rz77_w78 (s : Slide) (t : String) :
    readText (setText s "ZoneTexte 78" t) "ZoneTexte 77" = readText s "ZoneTexte 77" :=
  readText_setText_ne s _ t _ (by decide)

theorem rz77_w80 (s : Slide) (t : String) :
    readText (setText s "ZoneTexte 80" t) "ZoneTexte 77" = readText s "ZoneTexte 77" :=
  readText_setText_ne s _ t _ (by decide)

theorem rz77_w86 (s : Slide) (t : String) :
    readText (setText s "ZoneTexte 86" t) "ZoneTexte 77" = readText s "ZoneTexte 77" :=
  readText_setText_ne s _ t _ (by decide)

theorem rz77_w862 (s : Slide) (t : String) :
    readText (setText s "ZoneTexte 86-2" t) "ZoneTexte 77" = readText s "ZoneTexte 77" :=
  readText_setText_ne s _ t _ (by decide)

theorem rz77_wtitle (s : Slide) (t : String) :
    readText (setText s "Title 5" t) "ZoneTexte 77" = readText s "ZoneTexte 77" :=
  readText_setText_ne s _ t _ (by decide)

theorem rz78_w77 (s : Slide) (t : String) :
    readText (setText s "ZoneTexte 77" t) "ZoneTexte 78" = readText s "ZoneTexte 78" :=
  readText_setText_ne s _ t _ (by decide)

theorem rz78_w80 (s : Slide) (t : String) :
    readText (setText s "ZoneTexte 80" t) "ZoneTexte 78" = readText s "ZoneTexte 78" :=
  readText_setText_ne s _ t _ (by decide)

theorem rz78_w86 (s : Slide) (t : String) :
    readText (setText s "ZoneTexte 86" t) "ZoneTexte 78" = readText s "ZoneTexte 78" :=
  readText_setText_ne s _ t _ (by decide)

theorem rz78_w862 (s : Slide) (t : String) :
    readText (setText s "ZoneTexte 86-2" t) "ZoneTexte 78" = readText s "ZoneTexte 78" :=
  readText_setText_ne s _ t _ (by decide)

theorem rz78_wtitle (s : Slide) (t : String) :
    readText (setText s "Title 5" t) "ZoneTexte 78" = readText s "ZoneTexte 78" :=
  readText_setText_ne s _ t _ (by decide)

theorem rz80_w77 (s : Slide) (t : String) :
    readText (setText s "ZoneTexte 77" t) "ZoneTexte 80" = readText s "ZoneTexte 80" :=
  readText_setText_ne s _ t _ (by decide)

theorem rz80_w78 (s : Slide) (t : String) :
    readText (setText s "ZoneTexte 78" t) "ZoneTexte 80" = readText s "ZoneTexte 80" :=
  readText_setText_ne s _ t _ (by decide)

theorem rz80_w86 (s : Slide) (t : String) :
    readText (setText s "ZoneTexte 86" t) "ZoneTexte 80" = readText s "ZoneTexte 80" :=
  readText_setText_ne s _ t _ (by decide)

theorem rz80_w862 (s : Slide) (t : String) :
    readText (setText s "ZoneTexte 86-2" t) "ZoneTexte 80" = readText s "ZoneTexte 80" :=
  readText_setText_ne s _ t _ (by decide)

theorem rz80_wtitle (s : Slide) (t : String) :
    readText (setText s "Title 5" t) "ZoneTexte 80" = readText s "ZoneTexte 80" :=
  readText_setText_ne s _ t _ (by decide)

theorem rz86_w77 (s : Slide) (t : String) :
    readText (setText s "ZoneTexte 77" t) "ZoneTexte 86" = readText s "ZoneTexte 86" :=
  readText_setText_ne s _ t _ (by decide)

theorem rz86_w78 (s : Slide) (t : String) :
    readText (setText s "ZoneTexte 78" t) "ZoneTexte 86" = readText s "ZoneTexte 86" :=
  readText_setText_ne s _ t _ (by decide)

theorem rz86_w80 (s : Slide) (t : String) :
    readText (setText s "ZoneTexte 80" t) "ZoneTexte 86" = readText s "ZoneTexte 86" :=
  readText_setText_ne s _ t _ (by decide)

theorem rz86_w862 (s : Slide) (t : String) :
    readText (setText s "ZoneTexte 86-2" t) "ZoneTexte 86" = readText s "ZoneTexte 86" :=
  readText_setText_ne s _ t _ (by decide)

theorem rz86_wtitle (s : Slide) (t : String) :
    readText (setText s "Title 5" t) "ZoneTexte 86" = readText s "ZoneTexte 86" :=
  readText_setText_ne s _ t _ (by decide)

theorem rz862_w77 (s : Slide) (t : String) :
    readText (setText s "ZoneTexte 77" t) "ZoneTexte 86-2" = readText s "ZoneTexte 86-2" :=
  readText_setText_ne s _ t _ (by decide)

theorem rz862_w78 (s : Slide) (t : String) :
    readText (setText s "ZoneTexte 78" t) "ZoneTexte 86-2" = readText s "ZoneTexte 86-2" :=
  readText_setText_ne s _ t _ (by decide)

theorem rz862_w80 (s : Slide) (t : String) :
    readText (setText s "ZoneTexte 80" t) "ZoneTexte 86-2" = readText s "ZoneTexte 86-2" :=
  readText_setText_ne s _ t _ (by decide)

theorem rz862_w86 (s : Slide) (t : String) :
    readText (setText s "ZoneTexte 86" t) "ZoneTexte 86-2" = readText s "ZoneTexte 86-2" :=
  readText_setText_ne s _ t _ (by decide)

theorem rz862_wtitle (s : Slide) (t : String) :
    readText (setText s "Title 5" t) "ZoneTexte 86-2" = readText s "ZoneTexte 86-2" :=
  readText_setText_ne s _ t _ (by decide)

theorem tb77 : textTargetB slide69 "ZoneTexte 77" = true := by decide

theorem tb78 : textTargetB slide69 "ZoneTexte 78" = true := by decide

theorem tb80 : textTargetB slide69 "ZoneTexte 80" = true := by decide

theorem tb86 : textTargetB slide69 "ZoneTexte 86" = true := by decide

theorem tb862 : textTargetB slide69 "ZoneTexte 86-2" = true := by decide

/-- Claim C7: the fan-out rule of `fill_slide_type_69` over its five-zone
target list: a `detail_1` value splitting into K ≤ 5 lines writes exactly
the first K zones with the corresponding lines, in order, and leaves the
remaining 5 - K zones with the text the template shipped with. -/
theorem fanout_writes_first_k (title v : String) (points : List String)
    (hsplit : splitlines v = points) (hlen : points.length ≤ 5) :
    ∃ s, fill_slide_type_69 slide69 title (detailOnly v) = .ok s ∧
      (∀ i, i < points.length → readText s (zones69a.getD i "") = points[i]?) ∧
      (∀ i, points.length ≤ i → i < 5 →
        readText s (zones69a.getD i "") = readText slide69 (zones69a.getD i "")) := by
  simp only [fill_slide_type_69]
  rw [show detailOnly v "pro" = none from rfl,
      show detailOnly v "con" = none from rfl,
      show detailOnly v "detail_1" = some v from rfl,
      show detailOnly v "detail_2" = none from rfl]
  dsimp only
  rw [hsplit]
  rcases points with _ | ⟨a, _ | ⟨b, _ | ⟨c, _ | ⟨d, _ | ⟨e, _ | ⟨f, rest⟩⟩⟩⟩⟩⟩
  · simp only [zones69a, fanLoop]
    refine ⟨_, rfl, fun i hi => ?_, fun i h1 h2 => ?_⟩
    · simp at hi
    · simp only [List.length_cons, List.length_nil] at h1
      interval_cases i <;>
        simp only [zones69a, List.getD_cons_zero, List.getD_cons_succ,
          rz77_w78, rz77_w80, rz77_w86, rz77_w862, rz77_wtitle,
          rz78_w77, rz78_w80, rz78_w86, rz78_w862, rz78_wtitle,
          rz80_w77, rz80_w78, rz80_w86, rz80_w862, rz80_wtitle,
          rz86_w77, rz86_w78, rz86_w80, rz86_w862, rz86_wtitle,
          rz862_w77, rz862_w78, rz862_w80, rz862_w86, rz862_wtitle,
          readText_setText_self, textTargetB_setText, tb77, tb78, tb80, tb86, tb862,
          List.getElem?_cons_zero, List.getElem?_cons_succ]
  · simp only [zones69a, fanLoop]
    refine ⟨_, rfl, fun i hi => ?_, fun i h1 h2 => ?_⟩
    · simp only [List.length_cons, List.length_nil] at hi
      interval_cases i <;>
        simp only [zones69a, List.getD_cons_zero, List.getD_cons_succ,
          rz77_w78, rz77_w80, rz77_w86, rz77_w862, rz77_wtitle,
          rz78_w77, rz78_w80, rz78_w86, rz78_w862, rz78_wtitle,
          rz80_w77, rz80_w78, rz80_w86, rz80_w862, rz80_wtitle,
          rz86_w77, rz86_w78, rz86_w80, rz86_w862, rz86_wtitle,
          rz862_w77, rz862_w78, rz862_w80, rz862_w86, rz862_wtitle,
          readText_setText_self, textTargetB_setText, tb77, tb78, tb80, tb86, tb862,
          List.getElem?_cons_zero, List.getElem?_cons_succ]
    · simp only [List.length_cons, List.length_nil] at h1
      interval_cases i <;>
        simp only [zones69a, List.getD_cons_zero, List.getD_cons_succ,
          rz77_w78, rz77_w80, rz77_w86, rz77_w862, rz77_wtitle,
          rz78_w77, rz78_w80, rz78_w86, rz78_w862, rz78_wtitle,
          rz80_w77, rz80_w78, rz80_w86, rz80_w862, rz80_wtitle,
          rz86_w77, rz86_w78, rz86_w80, rz86_w862, rz86_wtitle,
          rz862_w77, rz862_w78, rz862_w80, rz862_w86, rz862_wtitle,
          readText_setText_self, textTargetB_setText, tb77, tb78, tb80, tb86, tb862,
          List.getElem?_cons_zero, List.getElem?_cons_succ]
  · simp only [zones69a, fanLoop]
    refine ⟨_, rfl, fun i hi => ?_, fun i h1 h2 => ?_⟩
    · simp only [List.length_cons, List.length_nil] at hi
      interval_cases i <;>
        simp only [zones69a, List.getD_cons_zero, List.getD_cons_succ,
          rz77_w78, rz77_w80, rz77_w86, rz77_w862, rz77_wtitle,
          rz78_w77, rz78_w80, rz78_w86, rz78_w862, rz78_wtitle,
          rz80_w77, rz80_w78, rz80_w86, rz80_w862, rz80_wtitle,
          rz86_w77, rz86_w78, rz86_w80, rz86_w862, rz86_wtitle,
          rz862_w77, rz862_w78, rz862_w80, rz862_w86, rz862_wtitle,
          readText_setText_self, textTargetB_setText, tb77, tb78, tb80, tb86, tb862,
          List.getElem?_cons_zero, List.getElem?_cons_succ]
    · simp only [List.length_cons, List.length_nil] at h1
      interval_cases i <;>
        simp only [zones69a, List.getD_cons_zero, List.getD_cons_succ,
          rz77_w78, rz77_w80, rz77_w86, rz77_w862, rz77_wtitle,
          rz78_w77, rz78_w80, rz78_w86, rz78_w862, rz78_wtitle,
          rz80_w77, rz80_w78, rz80_w86, rz80_w862, rz80_wtitle,
          rz86_w77, rz86_w78, rz86_w80, rz86_w862, rz86_wtitle,
          rz862_w77, rz862_w78, rz862_w80, rz862_w86, rz862_wtitle,
          readText_setText_self, textTargetB_setText, tb77, tb78, tb80, tb86, tb862,
          List.getElem?_cons_zero, List.getElem?_cons_succ]
  · simp only [zones69a, fanLoop]
    refine ⟨_, rfl, fun i hi => ?_, fun i h1 h2 => ?_⟩
    · simp only [List.length_cons, List.length_nil] at hi
      interval_cases i <;>
        simp only [zones69a, List.getD_cons_zero, List.getD_cons_succ,
          rz77_w78, rz77_w80, rz77_w86, rz77_w862, rz77_wtitle,
          rz78_w77, rz78_w80, rz78_w86, rz78_w862, rz78_wtitle,
          rz80_w77, rz80_w78, rz80_w86, rz80_w862, rz80_wtitle,
          rz86_w77, rz86_w78, rz86_w80, rz86_w862, rz86_wtitle,
          rz862_w77, rz862_w78, rz862_w80, rz862_w86, rz862_wtitle,
          readText_setText_self, textTargetB_setText, tb77, tb78, tb80, tb86, tb862,
          List.getElem?_cons_zero, List.getElem?_cons_succ]
    · simp only [List.length_cons, List.length_nil] at h1
      interval_cases i <;>
        simp only [zones69a, List.getD_cons_zero, List.getD_cons_succ,
          rz77_w78, rz77_w80, rz77_w86, rz77_w862, rz77_wtitle,
          rz78_w77, rz78_w80, rz78_w86, rz78_w862, rz78_wtitle,
          rz80_w77, rz80_w78, rz80_w86, rz80_w862, rz80_wtitle,
          rz86_w77, rz86_w78, rz86_w80, rz86_w862, rz86_wtitle,
          rz862_w77, rz862_w78, rz862_w80, rz862_w86, rz862_wtitle,
          readText_setText_self, textTargetB_setText, tb77, tb78, tb80, tb86, tb862,
          List.getElem?_cons_zero, List.getElem?_cons_succ]
  · simp only [zones69a, fanLoop]
    refine ⟨_, rfl, fun i hi => ?_, fun i h1 h2 => ?_⟩
    · simp only [List.length_cons, List.length_nil] at hi
      interval_cases i <;>
        simp only [zones69a, List.getD_cons_zero, List.getD_cons_succ,
          rz77_w78, rz77_w80, rz77_w86, rz77_w862, rz77_wtitle,
          rz78_w77, rz78_w80, rz78_w86, rz78_w862, rz78_wtitle,
          rz80_w77, rz80_w78, rz80_w86, rz80_w862, rz80_wtitle,
          rz86_w77, rz86_w78, rz86_w80, rz86_w862, rz86_wtitle,
          rz862_w77, rz862_w78, rz862_w80, rz862_w86, rz862_wtitle,
          readText_setText_self, textTargetB_setText, tb77, tb78, tb80, tb86, tb862,
          List.getElem?_cons_zero, List.getElem?_cons_succ]
    · simp only [List.length_cons, List.length_nil] at h1
      interval_cases i <;>
        simp only [zones69a, List.getD_cons_zero, List.getD_cons_succ,
          rz77_w78, rz77_w80, rz77_w86, rz77_w862, rz77_wtitle,
          rz78_w77, rz78_w80, rz78_w86, rz78_w862, rz78_wtitle,
          rz80_w77, rz80_w78, rz80_w86, rz80_w862, rz80_wtitle,
          rz86_w77, rz86_w78, rz86_w80, rz86_w862, rz86_wtitle,
          rz862_w77, rz862_w78, rz862_w80, rz862_w86, rz862_wtitle,
          readText_setText_self, textTargetB_setText, tb77, tb78, tb80, tb86, tb862,
          List.getElem?_cons_zero, List.getElem?_cons_succ]
  · simp only [zones69a, fanLoop]
    refine ⟨_, rfl, fun i hi => ?_, fun i h1 h2 => ?_⟩
    · simp only [List.length_cons, List.length_nil] at hi
      interval_cases i <;>
        simp only [zones69a, List.getD_cons_zero, List.getD_cons_succ,
          rz77_w78, rz77_w80, rz77_w86, rz77_w862, rz77_wtitle,
          rz78_w77, rz78_w80, rz78_w86, rz78_w862, rz78_wtitle,
          rz80_w77, rz80_w78, rz80_w86, rz80_w862, rz80_wtitle,
          rz86_w77, rz86_w78, rz86_w80, rz86_w862, rz86_wtitle,
          rz862_w77, rz862_w78, rz862_w80, rz862_w86, rz862_wtitle,
          readText_setText_self, textTargetB_setText, tb77, tb78, tb80, tb86, tb862,
          List.getElem?_cons_zero, List.getElem?_cons_succ]
    · simp only [List.length_cons, List.length_nil] at h1
      interval_cases i <;>
        simp only [zones69a, List.getD_cons_zero, List.getD_cons_succ,
          rz77_w78, rz77_w80, rz77_w86, rz77_w862, rz77_wtitle,
          rz78_w77, rz78_w80, rz78_w86, rz78_w862, rz78_wtitle,
          rz80_w77, rz80_w78, rz80_w86, rz80_w862, rz80_wtitle,
          rz86_w77, rz86_w78, rz86_w80, rz86_w862, rz86_wtitle,
          rz862_w77, rz862_w78, rz862_w80, rz862_w86, rz862_wtitle,
          readText_setText_self, textTargetB_setText, tb77, tb78, tb80, tb86, tb862,
          List.getElem?_cons_zero, List.getElem?_cons_succ]
  · exfalso
    simp only [List.length_cons] at hlen
    omega

/-- Claim C7 (witness): the value "A\nB\nC" against the five zones. -/
theorem fanout_writes_first_k_witness :
    splitlines "A\nB\nC" = ["A", "B", "C"] ∧ (["A", "B", "C"] : List String).length ≤ 5 ∧
      (∃ s, fill_slide_type_69 slide69 "T" (detailOnly "A\nB\nC") = .ok s ∧
        (∀ i, i < (["A", "B", "C"] : List String).length →
          readText s (zones69a.getD i "") = (["A", "B", "C"] : List String)[i]?) ∧
        (∀ i, (["A", "B", "C"] : List String).length ≤ i → i < 5 →
          readText s (zones69a.getD i "") = readText slide69 (zones69a.getD i ""))) :=
  ⟨by decide, by decide,
    fanout_writes_first_k "T" "A\nB\nC" ["A", "B", "C"] (by decide) (by decide)⟩

/-- Claim C8: a `detail_1` value with six lines against the five-zone list
makes the fan-out loop of `fill_slide_type_69` index past the end of the
zone list: the filler raises an index-out-of-range fault instead of
clipping. -/
theorem fanout_overflow_out_of_bounds :
    fill_slide_type_69 slide69 "T" (detailOnly "A\nB\nC\nD\nE\nF")
      = .error "list index out of range" := rfl

theorem getElem?_append_len {α : Type} (done : List α) (p : α) (rest : List α) :
    (done ++ p :: rest)[done.length]? = some p := by
  rw [List.getElem?_append_right (Nat.le_refl _)]
  simp

theorem set_append_len {α : Type} (done : List α) (p v : α) (rest : List α) :
    (done ++ p :: rest).set done.length v = done ++ v :: rest := by
  rw [List.set_append]
  simp

theorem copySlides_ok {S : Type} (lib : List S) :
    ∀ (idxs : List Int) (tpls deck : List S), mapLib lib idxs = some tpls →
      copySlides lib deck idxs = .ok (deck ++ tpls) := by
  intro idxs
  induction idxs with
  | nil =>
    intro tpls deck h
    unfold mapLib at h
    injection h with h
    subst h
    simp [copySlides]
  | cons i rest ih =>
    intro tpls deck h
    unfold mapLib at h
    split at h
    · exact absurd h (by simp)
    · rename_i s hs
      split at h
      · exact absurd h (by simp)
      · rename_i l hl
        injection h with h
        subst h
        unfold copySlides
        rw [hs]
        dsimp only
        rw [ih l (deck ++ [s]) hl]
        simp

theorem idxTemplates_parts {S : Type} (lib : List S) :
    ∀ (entries : List RawEntry) (tpls : List S),
      idxTemplates lib entries = some tpls →
      ∃ idxs, collectIdx entries = some idxs ∧ mapLib lib idxs = some tpls ∧
        idxs.length = entries.length ∧ tpls.length = entries.length := by
  intro entries
  induction entries with
  | nil =>
    intro tpls h
    unfold idxTemplates at h
    injection h with h
    subst h
    exact ⟨[], rfl, rfl, rfl, rfl⟩
  | cons e rest ih =>
    intro tpls h
    unfold idxTemplates at h
    split at h
    · exact absurd h (by simp)
    · rename_i id hid
      split at h
      · exact absurd h (by simp)
      · rename_i tpl htpl
        split at h
        · exact absurd h (by simp)
        · rename_i l hl
          injection h with h
          subst h
          rcases ih l hl with ⟨idxs, hc, hm, hcl, hml⟩
          refine ⟨(id - 1) :: idxs, ?_, ?_, by simp [hcl], by simp [hml]⟩
          · unfold collectIdx
            rw [hid]
            dsimp only
            rw [hc]
            rfl
          · unfold mapLib
            rw [htpl]
            dsimp only
            rw [hm]

theorem fillAllZip_lengths {S : Type} (fillers : Fillers S) :
    ∀ (entries : List RawEntry) (tpls out : List S),
      fillAllZip fillers entries tpls = some out →
      tpls.length = entries.length ∧ out.length = entries.length := by
  intro entries
  induction entries with
  | nil =>
    intro tpls out h
    cases tpls with
    | nil =>
      unfold fillAllZip at h
      injection h with h
      subst h
      exact ⟨rfl, rfl⟩
    | cons t ts => exact absurd h (by simp [fillAllZip])
  | cons e rest ih =>
    intro tpls out h
    cases tpls with
    | nil => exact absurd h (by simp [fillAllZip])
    | cons tpl tpls =>
      unfold fillAllZip at h
      split at h
      · exact absurd h (by simp)
      · rename_i id hid
        split at h
        · exact absurd h (by simp)
        · rename_i f hf
          split at h
          · exact absurd h (by simp)
          · rename_i t ht
            split at h
            · exact absurd h (by simp)
            · rename_i m hm
              split at h
              · exact absurd h (by simp)
              · rename_i s hs
                split at h
                · exact absurd h (by simp)
                · rename_i l hl
                  injection h with h
                  subst h
                  rcases ih tpls l hl with ⟨h1, h2⟩
                  exact ⟨by simp [h1], by simp [h2]⟩

theorem fillLoop_append {S : Type} (fillers : Fillers S) :
    ∀ (pre : List RawEntry) (restE : List RawEntry) (preT preOut restT done : List S)
      (i : Nat), i + 1 = done.length →
      fillAllZip fillers pre preT = some preOut →
      fillLoop fillers (pre ++ restE) i (done ++ (preT ++ restT))
        = fillLoop fillers restE (i + pre.length) ((done ++ preOut) ++ restT) := by
  intro pre
  induction pre with
  | nil =>
    intro restE preT preOut restT done i hi h
    cases preT with
    | nil =>
      unfold fillAllZip at h
      injection h with h
      subst h
      simp
    | cons t ts => exact absurd h (by simp [fillAllZip])
  | cons e pre ih =>
    intro restE preT preOut restT done i hi h
    cases preT with
    | nil => exact absurd h (by simp [fillAllZip])
    | cons tpl preT =>
      unfold fillAllZip at h
      split at h
      · exact absurd h (by simp)
      · rename_i id hid
        split at h
        · exact absurd h (by simp)
        · rename_i f hf
          split at h
          · exact absurd h (by simp)
          · rename_i t ht
            split at h
            · exact absurd h (by simp)
            · rename_i m hm
              split at h
              · exact absurd h (by simp)
              · rename_i s hs
                split at h
                · exact absurd h (by simp)
                · rename_i l hl
                  injection h with h
                  subst h
                  show fillLoop fillers (e :: (pre ++ restE)) i
                      (done ++ (tpl :: (preT ++ restT)))
                    = fillLoop fillers restE (i + (pre.length + 1))
                        ((done ++ s :: l) ++ restT)
                  unfold fillLoop
                  rw [hid]
                  dsimp only
                  rw [hf]
                  dsimp only
                  rw [ht]
                  dsimp only
                  rw [hm]
                  dsimp only
                  rw [show i + 1 = done.length from hi, getElem?_append_len]
                  dsimp only
                  rw [hs]
                  dsimp only
                  rw [set_append_len, ← hi]
                  have hstep := ih restE preT l restT (done ++ [s]) (i + 1)
                    (by simp; omega) hl
                  rw [show done ++ s :: (preT ++ restT)
                      = (done ++ [s]) ++ (preT ++ restT) by simp]
                  rw [hstep]
                  have h1 : i + 1 + pre.length = i + (pre.length + 1) := by omega
                  rw [h1]
                  rw [show (done ++ [s]) ++ l = done ++ s :: l by simp]
                  rw [fillLoop.eq_def]

theorem fillAllEntries_parts {S : Type} (lib : List S) (fillers : Fillers S) :
    ∀ (entries : List RawEntry) (out : List S),
      fillAllEntries lib fillers entries = some out →
      ∃ tpls, idxTemplates lib entries = some tpls ∧
        fillAllZip fillers entries tpls = some out := by
  intro entries
  induction entries with
  | nil =>
    intro out h
    unfold fillAllEntries at h
    injection h with h
    subst h
    exact ⟨[], rfl, rfl⟩
  | cons e rest ih =>
    intro out h
    unfold fillAllEntries at h
    split at h
    · rename_i s l hfe hrest
      injection h with h
      subst h
      rcases ih l hrest with ⟨tpls, hidx, hzip⟩
      unfold fillEntry at hfe
      split at hfe
      · exact absurd hfe (by simp)
      · rename_i id hid
        split at hfe
        · exact absurd hfe (by simp)
        · rename_i tpl htpl
          split at hfe
          · exact absurd hfe (by simp)
          · rename_i f hf
            split at hfe
            · exact absurd hfe (by simp)
            · rename_i t ht
              split at hfe
              · exact absurd hfe (by simp)
              · rename_i m hm
                split at hfe
                · rename_i s2 hs2
                  injection hfe with hfe
                  subst hfe
                  refine ⟨tpl :: tpls, ?_, ?_⟩
                  · unfold idxTemplates
                    rw [hid]
                    dsimp only
                    rw [htpl]
                    dsimp only
                    rw [hidx]
                  · unfold fillAllZip
                    rw [hid]
                    dsimp only
                    rw [hf]
                    dsimp only
                    rw [ht]
                    dsimp only
                    rw [hm]
                    dsimp only
                    rw [hs2]
                    dsimp only
                    rw [hzip]
                · exact absurd hfe (by simp)
    · rename_i hne
      exact absurd h (by simp)

theorem idxTemplates_append {S : Type} (lib : List S) :
    ∀ (l1 l2 : List RawEntry) (t1 t2 : List S),
      idxTemplates lib l1 = some t1 → idxTemplates lib l2 = some t2 →
      idxTemplates lib (l1 ++ l2) = some (t1 ++ t2) := by
  intro l1
  induction l1 with
  | nil =>
    intro l2 t1 t2 h1 h2
    unfold idxTemplates at h1
    injection h1 with h1
    subst h1
    simpa using h2
  | cons e rest ih =>
    intro l2 t1 t2 h1 h2
    unfold idxTemplates at h1
    split at h1
    · exact absurd h1 (by simp)
    · rename_i id hid
      split at h1
      · exact absurd h1 (by simp)
      · rename_i tpl htpl
        split at h1
        · exact absurd h1 (by simp)
        · rename_i l hl
          injection h1 with h1
          subst h1
          show idxTemplates lib (e :: (rest ++ l2)) = some ((tpl :: l) ++ t2)
          unfold idxTemplates
          rw [hid]
          dsimp only
          rw [htpl]
          dsimp only
          rw [ih l2 l t2 hl h2]
          rfl

theorem collectIdx_none :
    ∀ (entries : List RawEntry), (∃ e, e ∈ entries ∧ e.slide_index = none) →
      collectIdx entries = none := by
  intro entries
  induction entries with
  | nil =>
    rintro ⟨e, he, _⟩
    exact absurd he (by simp)
  | cons a rest ih =>
    rintro ⟨e, he, hnone⟩
    rcases List.mem_cons.mp he with rfl | hmem
    · unfold collectIdx
      rw [hnone]
    · unfold collectIdx
      split
      · rfl
      · rw [ih ⟨e, hmem, hnone⟩]
        rfl

/-- Claim C1: for every valid content plan (each entry resolvable: a
template id whose library slide and filler exist, a title and a slot map,
with the filler succeeding), `_build_slide` produces exactly the deck the
plan demands: `1 + len(slides)` slides, the filled title template (library
position 0) first, then, in plan order, each entry's template (library
position `slide_index - 1`) filled from that entry. -/
theorem assembly_deck_matches_plan {S : Type} (lib : List S) (fillers : Fillers S)
    (titleFiller : S → String → S) (pt : String) (entries : List RawEntry)
    (dk : List S) (h : plannedDeck lib fillers titleFiller pt entries = some dk) :
    buildSlide lib fillers titleFiller ⟨some pt, some entries⟩ = .ok ⟨true, dk⟩ ∧
      dk.length = 1 + entries.length := by
  unfold plannedDeck at h
  split at h
  · exact absurd h (by simp)
  · rename_i s0 hs0
    split at h
    · exact absurd h (by simp)
    · rename_i rest hrest
      injection h with h
      subst h
      rcases fillAllEntries_parts lib fillers entries rest hrest with ⟨tpls, hidx, hzip⟩
      rcases idxTemplates_parts lib entries tpls hidx with ⟨idxs, hc, hm, hcl, hml⟩
      rcases fillAllZip_lengths fillers entries tpls rest hzip with ⟨hl1, hl2⟩
      constructor
      · have hcopy : copySlides lib [] (0 :: idxs) = .ok (s0 :: tpls) := by
          unfold copySlides
          rw [hs0]
          dsimp only
          rw [copySlides_ok lib idxs tpls ([] ++ [s0]) hm]
          simp
        have hfl := fillLoop_append fillers entries [] tpls rest []
          [titleFiller s0 pt] 0 rfl hzip
        simp only [List.append_nil, List.singleton_append, Nat.zero_add] at hfl
        unfold buildSlide
        dsimp only
        rw [hc]
        dsimp only
        rw [hcopy]
        dsimp only
        simp only [List.getElem?_cons_zero]
        rw [show ((s0 :: tpls).set 0 (titleFiller s0 pt))
            = titleFiller s0 pt :: tpls from rfl]
        rw [hfl]
        rfl
      · simp only [List.length_cons, hl2]
        omega

/-- Claim C1 (witness): a three-slide library, fillers for ids 2 and 3, and
a two-entry plan assemble into the planned three-slide deck. -/
theorem assembly_deck_matches_plan_witness :
    plannedDeck ["T", "A", "B"]
        (fun id => if id = 2 ∨ id = 3 then
            some (fun s t _ => Except.ok (s ++ "|" ++ t)) else none)
        (fun s t => s ++ "|" ++ t) "Q"
        [⟨some 2, some "s1", some (fun _ => none)⟩,
         ⟨some 3, some "s2", some (fun _ => none)⟩]
      = some ["T|Q", "A|s1", "B|s2"] ∧
    (buildSlide ["T", "A", "B"]
        (fun id => if id = 2 ∨ id = 3 then
            some (fun s t _ => Except.ok (s ++ "|" ++ t)) else none)
        (fun s t => s ++ "|" ++ t)
        ⟨some "Q", some [⟨some 2, some "s1", some (fun _ => none)⟩,
                         ⟨some 3, some "s2", some (fun _ => none)⟩]⟩
      = .ok ⟨true, ["T|Q", "A|s1", "B|s2"]⟩ ∧
      (["T|Q", "A|s1", "B|s2"] : List String).length
        = 1 + ([⟨some 2, some "s1", some (fun _ => none)⟩,
                ⟨some 3, some "s2", some (fun _ => none)⟩] : List RawEntry).length) :=
  ⟨rfl, assembly_deck_matches_plan _ _ _ _ _ _ rfl⟩

theorem collectIdx_append :
    ∀ (l1 l2 : List RawEntry) (i1 i2 : List Int),
      collectIdx l1 = some i1 → collectIdx l2 = some i2 →
      collectIdx (l1 ++ l2) = some (i1 ++ i2) := by
  intro l1
  induction l1 with
  | nil =>
    intro l2 i1 i2 h1 h2
    unfold collectIdx at h1
    injection h1 with h1
    subst h1
    simpa using h2
  | cons e rest ih =>
    intro l2 i1 i2 h1 h2
    rcases he : e.slide_index with _ | i
    · unfold collectIdx at h1
      rw [he] at h1
      exact absurd h1 (by simp)
    · unfold collectIdx at h1
      rw [he] at h1
      dsimp only at h1
      rcases hr : collectIdx rest with _ | ir
      · rw [hr] at h1
        exact absurd h1 (by simp)
      · rw [hr] at h1
        simp only [Option.map_some'] at h1
        injection h1 with h1
        subst h1
        show collectIdx (e :: (rest ++ l2)) = some (((i - 1) :: ir) ++ i2)
        conv_lhs => rw [collectIdx.eq_def]
        dsimp only
        rw [he]
        dsimp only
        rw [ih l2 ir i2 hr h2]
        rfl

theorem copySlides_append {S : Type} (lib : List S) :
    ∀ (a b : List Int) (T deck : List S), mapLib lib a = some T →
      copySlides lib deck (a ++ b) = copySlides lib (deck ++ T) b := by
  intro a
  induction a with
  | nil =>
    intro b T deck h
    unfold mapLib at h
    injection h with h
    subst h
    simp
  | cons i rest ih =>
    intro b T deck h
    unfold mapLib at h
    rcases hg : libGet lib i with _ | sl
    · rw [hg] at h
      exact absurd h (by simp)
    · rw [hg] at h
      dsimp only at h
      rcases hm : mapLib lib rest with _ | T2
      · rw [hm] at h
        exact absurd h (by simp)
      · rw [hm] at h
        dsimp only at h
        injection h with h
        subst h
        show copySlides lib deck (i :: (rest ++ b)) = copySlides lib (deck ++ sl :: T2) b
        conv_lhs => rw [copySlides.eq_def]
        dsimp only
        rw [hg]
        dsimp only
        rw [ih b T2 (deck ++ [sl]) hm]
        rw [show (deck ++ [sl]) ++ T2 = deck ++ sl :: T2 from by simp]

/-- Claim C5 (amended): a plan entry whose template id has no filler aborts
assembly with no later entry filled, but the id is reported only when the id
references an existing library slide: then the fill loop stops at that entry
with `Unknown Slide Type: {id}`, earlier entries filled, the bad entry and
all later ones left as raw copies (first four conjuncts).  An id beyond the
library never reaches the fill loop: the copy phase aborts first, with the
host's out-of-range error, which does not name the id (last conjunct). -/
theorem unknown_slide_type_aborts {S : Type} (lib : List S) (fillers : Fillers S)
    (titleFiller : S → String → S) (pt : String) (pre post : List RawEntry)
    (bad : RawEntry) (badId : Int) (s0 badT : S) (preT postT preOut : List S)
    (hs0 : libGet lib 0 = some s0)
    (hpreT : idxTemplates lib pre = some preT)
    (hbadId : bad.slide_index = some badId)
    (hbadT : libGet lib (badId - 1) = some badT)
    (hpostT : idxTemplates lib post = some postT)
    (hnof : fillers badId = none)
    (hpre : fillAllZip fillers pre preT = some preOut) :
    buildSlide lib fillers titleFiller ⟨some pt, some (pre ++ bad :: post)⟩
      = .error ("Unknown Slide Type: " ++ toString badId,
          ⟨true, (titleFiller s0 pt :: preOut) ++ badT :: postT⟩) ∧
      ((titleFiller s0 pt :: preOut) ++ badT :: postT).length
        = 1 + (pre ++ bad :: post).length ∧
      preOut.length = pre.length ∧ postT.length = post.length ∧
      (∀ (pt2 : String) (pre2 post2 : List RawEntry) (bad2 : RawEntry)
        (badId2 : Int) (preT2 : List S) (pidx : List Int),
        idxTemplates lib pre2 = some preT2 →
        bad2.slide_index = some badId2 →
        libGet lib (badId2 - 1) = none →
        collectIdx post2 = some pidx →
        buildSlide lib fillers titleFiller ⟨some pt2, some (pre2 ++ bad2 :: post2)⟩
          = .error ("slide index out of range", ⟨true, s0 :: preT2⟩)) := by
  have hbadpost : idxTemplates lib (bad :: post) = some (badT :: postT) := by
    unfold idxTemplates
    rw [hbadId]
    dsimp only
    rw [hbadT]
    dsimp only
    rw [hpostT]
  have hall : idxTemplates lib (pre ++ bad :: post) = some (preT ++ badT :: postT) :=
    idxTemplates_append lib pre (bad :: post) preT (badT :: postT) hpreT hbadpost
  rcases idxTemplates_parts lib _ _ hall with ⟨idxs, hc, hm, hcl, hml⟩
  rcases idxTemplates_parts lib _ _ hpreT with ⟨_, _, _, _, hpreTl⟩
  rcases idxTemplates_parts lib _ _ hpostT with ⟨_, _, _, _, hpostTl⟩
  rcases fillAllZip_lengths fillers pre preT preOut hpre with ⟨_, hpreOutl⟩
  refine ⟨?_, ?_, hpreOutl, hpostTl, ?_⟩
  · have hcopy : copySlides lib [] (0 :: idxs)
        = .ok (s0 :: (preT ++ badT :: postT)) := by
      unfold copySlides
      rw [hs0]
      dsimp only
      rw [copySlides_ok lib idxs _ ([] ++ [s0]) hm]
      simp
    have hfl := fillLoop_append fillers pre (bad :: post) preT preOut
      (badT :: postT) [titleFiller s0 pt] 0 rfl hpre
    simp only [List.singleton_append, Nat.zero_add] at hfl
    unfold buildSlide
    dsimp only
    rw [hc]
    dsimp only
    rw [hcopy]
    dsimp only
    simp only [List.getElem?_cons_zero]
    rw [show ((s0 :: (preT ++ badT :: postT)).set 0 (titleFiller s0 pt))
        = titleFiller s0 pt :: (preT ++ badT :: postT) from rfl]
    rw [hfl]
    rw [fillLoop.eq_def]
    dsimp only
    rw [hbadId]
    dsimp only
    rw [hnof]
  · simp only [List.length_append, List.length_cons, hpreOutl, hpostTl]
    omega
  · intro pt2 pre2 post2 bad2 badId2 preT2 pidx hpreT2 hbadId2 hbadNone hpostIdx
    rcases idxTemplates_parts lib pre2 preT2 hpreT2 with ⟨ia, hc2, hm2, _, _⟩
    have hb2 : collectIdx (bad2 :: post2) = some ((badId2 - 1) :: pidx) := by
      conv_lhs => rw [collectIdx.eq_def]
      dsimp only
      rw [hbadId2]
      dsimp only
      rw [hpostIdx]
      rfl
    have hcoll : collectIdx (pre2 ++ bad2 :: post2)
        = some (ia ++ (badId2 - 1) :: pidx) :=
      collectIdx_append pre2 (bad2 :: post2) ia ((badId2 - 1) :: pidx) hc2 hb2
    have hcs : copySlides lib [] (0 :: (ia ++ (badId2 - 1) :: pidx))
        = .error ("slide index out of range", s0 :: preT2) := by
      unfold copySlides
      rw [hs0]
      dsimp only
      rw [copySlides_append lib ia ((badId2 - 1) :: pidx) preT2 ([] ++ [s0]) hm2]
      conv_lhs => rw [copySlides.eq_def]
      dsimp only
      rw [hbadNone]
      simp
    unfold buildSlide
    dsimp only
    rw [hcoll]
    dsimp only
    rw [hcs]

/-- Claim C5 (witness): a ten-slide library with fillers only for ids 2 and
3; the plan [id 2, id 7, id 3] aborts at the id-7 entry with
"Unknown Slide Type: 7", the first entry filled and the rest raw. -/
theorem unknown_slide_type_aborts_witness :
    buildSlide ["T", "L1", "L2", "L3", "L4", "L5", "L6", "L7", "L8", "L9"]
        (fun id => if id = 2 ∨ id = 3 then
            some (fun s t _ => Except.ok (s ++ "|" ++ t)) else none)
        (fun s t => s ++ "|" ++ t)
        ⟨some "Q", some ([⟨some 2, some "s1", some (fun _ => none)⟩] ++
          ⟨some 7, some "sBad", some (fun _ => none)⟩ ::
          [⟨some 3, some "s2", some (fun _ => none)⟩])⟩
      = .error ("Unknown Slide Type: " ++ toString (7 : Int),
          ⟨true, ("T|Q" :: ["L1|s1"]) ++ "L6" :: ["L2"]⟩) ∧
      toString (7 : Int) = "7" := by
  have h := unknown_slide_type_aborts
    (["T", "L1", "L2", "L3", "L4", "L5", "L6", "L7", "L8", "L9"] : List String)
    (fun id => if id = 2 ∨ id = 3 then
        some (fun s t _ => Except.ok (s ++ "|" ++ t)) else none)
    (fun s t => s ++ "|" ++ t) "Q"
    [⟨some 2, some "s1", some (fun _ => none)⟩]
    [⟨some 3, some "s2", some (fun _ => none)⟩]
    ⟨some 7, some "sBad", some (fun _ => none)⟩ 7
    "T" "L6" ["L1"] ["L2"] ["L1|s1"]
    rfl rfl rfl rfl rfl rfl rfl
  exact ⟨h.1, by decide⟩

/-- Claim C5 (counterexample to the original wording): the unknown id 9999
against a two-slide library — the id has no filler, yet assembly aborts
during the copy phase, before the fill loop, with the host's out-of-range
error; the message does not report the id (it is not the fill loop's
`Unknown Slide Type: 9999`). -/
theorem out_of_library_unknown_id_unreported :
    buildSlide ["T", "A"] (fun _ => none) (fun s t => s ++ "|" ++ t)
      ⟨some "Q", some [⟨some 9999, some "s1", some (fun _ => none)⟩]⟩
      = .error ("slide index out of range", ⟨true, ["T"]⟩) ∧
    "slide index out of range" ≠ "Unknown Slide Type: " ++ toString (9999 : Int) := by
  refine ⟨rfl, ?_⟩
  decide

/-- Claim C4 (counterexample): a structurally invalid plan (an entry
missing `slide_title`) does NOT fail before deck mutation: the output deck
is created, both slides are copied and the title is filled before the
KeyError surfaces. -/
theorem invalid_plan_mutates_deck :
    buildSlide ["T", "A", "B"]
        (fun id => if id = 2 ∨ id = 3 then
            some (fun s t _ => Except.ok (s ++ "|" ++ t)) else none)
        (fun s t => s ++ "|" ++ t)
        ⟨some "Q", some [⟨some 2, none, some (fun _ => none)⟩]⟩
      = .error ("KeyError: slide_title", ⟨true, ["T|Q", "A"]⟩) ∧
      (["T|Q", "A"] : List String) ≠ [] := by
  exact ⟨rfl, by simp⟩

/-- Claim C4 (amended): the Controller validates lazily, not up front.  A
plan missing `presentation_title` or `slides` fails before the deck is
created; an entry missing `slide_index` fails after the blank deck is
created but before any slide is copied; an entry missing `slide_title`
fails only in the fill phase, after every slide of the plan has been
copied, leaving a half-built deck. -/
theorem plan_validation_is_lazy {S : Type} (lib : List S) (fillers : Fillers S)
    (titleFiller : S → String → S) :
    (∀ sl, buildSlide lib fillers titleFiller ⟨none, sl⟩
        = .error ("KeyError: presentation_title", ⟨false, []⟩)) ∧
    (∀ pt, buildSlide lib fillers titleFiller ⟨some pt, none⟩
        = .error ("KeyError: slides", ⟨false, []⟩)) ∧
    (∀ pt entries, (∃ e, e ∈ entries ∧ e.slide_index = none) →
      buildSlide lib fillers titleFiller ⟨some pt, some entries⟩
        = .error ("KeyError: slide_index", ⟨true, []⟩)) ∧
    (∀ pt pre post bad badId f s0 badT preT postT preOut,
      libGet lib 0 = some s0 →
      idxTemplates lib pre = some preT →
      bad.slide_index = some badId →
      libGet lib (badId - 1) = some badT →
      idxTemplates lib post = some postT →
      fillers badId = some f →
      bad.slide_title = none →
      fillAllZip fillers pre preT = some preOut →
      buildSlide lib fillers titleFiller ⟨some pt, some (pre ++ bad :: post)⟩
        = .error ("KeyError: slide_title",
            ⟨true, (titleFiller s0 pt :: preOut) ++ badT :: postT⟩)) := by
  refine ⟨fun sl => rfl, fun pt => rfl, fun pt entries he => ?_, ?_⟩
  · unfold buildSlide
    dsimp only
    rw [collectIdx_none entries he]
  · intro pt pre post bad badId f s0 badT preT postT preOut
      hs0 hpreT hbadId hbadT hpostT hf htitle hpre
    have hbadpost : idxTemplates lib (bad :: post) = some (badT :: postT) := by
      unfold idxTemplates
      rw [hbadId]
      dsimp only
      rw [hbadT]
      dsimp only
      rw [hpostT]
    have hall : idxTemplates lib (pre ++ bad :: post)
        = some (preT ++ badT :: postT) :=
      idxTemplates_append lib pre (bad :: post) preT (badT :: postT) hpreT hbadpost
    rcases idxTemplates_parts lib _ _ hall with ⟨idxs, hc, hm, hcl, hml⟩
    have hcopy : copySlides lib [] (0 :: idxs)
        = .ok (s0 :: (preT ++ badT :: postT)) := by
      unfold copySlides
      rw [hs0]
      dsimp only
      rw [copySlides_ok lib idxs _ ([] ++ [s0]) hm]
      simp
    have hfl := fillLoop_append fillers pre (bad :: post) preT preOut
      (badT :: postT) [titleFiller s0 pt] 0 rfl hpre
    simp only [List.singleton_append, Nat.zero_add] at hfl
    unfold buildSlide
    dsimp only
    rw [hc]
    dsimp only
    rw [hcopy]
    dsimp only
    simp only [List.getElem?_cons_zero]
    rw [show ((s0 :: (preT ++ badT :: postT)).set 0 (titleFiller s0 pt))
        = titleFiller s0 pt :: (preT ++ badT :: postT) from rfl]
    rw [hfl]
    rw [fillLoop.eq_def]
    dsimp only
    rw [hbadId]
    dsimp only
    rw [hf]
    dsimp only
    rw [htitle]

/-- Claim C4 (witness for the amended theorem): concrete runs exhibiting
each lazy-failure point. -/
theorem plan_validation_is_lazy_witness :
    buildSlide ["T", "A"] (fun _ => none) (fun s _ => s) ⟨none, none⟩
      = .error ("KeyError: presentation_title", ⟨false, []⟩) ∧
    buildSlide ["T", "A"] (fun _ => none) (fun s _ => s)
      ⟨some "Q", some [⟨none, some "x", some (fun _ => none)⟩]⟩
      = .error ("KeyError: slide_index", ⟨true, []⟩) ∧
    buildSlide ["T", "A"]
      (fun id => if id = 2 then
          some (fun s t _ => Except.ok (s ++ "|" ++ t)) else none)
      (fun s t => s ++ "|" ++ t)
      ⟨some "Q", some ([] ++ (⟨some 2, none, some (fun _ => none)⟩ : RawEntry) :: [])⟩
      = .error ("KeyError: slide_title", ⟨true, ("T|Q" :: []) ++ "A" :: []⟩) := by
  have h := plan_validation_is_lazy ["T", "A"]
    (fun id => if id = 2 then
        some (fun s t _ => Except.ok (s ++ "|" ++ t)) else none)
    (fun s t => s ++ "|" ++ t)
  refine ⟨(plan_validation_is_lazy ["T", "A"] (fun _ => none) (fun s _ => s)).1 none,
    (plan_validation_is_lazy ["T", "A"] (fun _ => none) (fun s _ => s)).2.2.1 "Q"
      [⟨none, some "x", some (fun _ => none)⟩]
      ⟨⟨none, some "x", some (fun _ => none)⟩, by simp, rfl⟩,
    h.2.2.2 "Q" [] [] ⟨some 2, none, some (fun _ => none)⟩ 2
      (fun s t _ => Except.ok (s ++ "|" ++ t)) "T" "A" [] [] []
      rfl rfl rfl rfl rfl rfl rfl rfl⟩

theorem isDigit_bounds (c : Char) (h : c.isDigit = true) :
    48 ≤ c.toNat ∧ c.toNat ≤ 57 := by
  simp [Char.isDigit] at h
  exact ⟨h.1, h.2⟩

theorem digit_not_ws4 (c : Char) (h : c.isDigit = true) : isWs4 c = false := by
  rcases isDigit_bounds c h with ⟨h1, h2⟩
  unfold isWs4
  simp only [Bool.or_eq_false_iff, decide_eq_false_iff_not]
  refine ⟨⟨⟨?_, ?_⟩, ?_⟩, ?_⟩ <;> (rintro rfl; exact absurd h1 (by decide))

theorem digit_ne_comma (c : Char) (h : c.isDigit = true) : c ≠ ',' := by
  rcases isDigit_bounds c h with ⟨h1, h2⟩
  rintro rfl
  exact absurd h1 (by decide)

theorem digit_not_wsPy (c : Char) (h : c.isDigit = true) : isWsPy c = false := by
  rcases isDigit_bounds c h with ⟨h1, h2⟩
  unfold isWsPy
  simp only [Bool.or_eq_false_iff, decide_eq_false_iff_not]
  refine ⟨⟨⟨⟨⟨?_, ?_⟩, ?_⟩, ?_⟩, ?_⟩, ?_⟩ <;> (rintro rfl; exact absurd h1 (by decide))

theorem digit_not_closer (c : Char) (h : c.isDigit = true) : isCloser c = false := by
  rcases isDigit_bounds c h with ⟨h1, h2⟩
  unfold isCloser
  simp only [Bool.or_eq_false_iff, decide_eq_false_iff_not]
  refine ⟨?_, ?_⟩ <;> (rintro rfl; exact absurd h2 (by decide))

theorem digit_ne_quote (c : Char) (h : c.isDigit = true) :
    c ≠ '"' ∧ c ≠ '[' ∧ c ≠ '\x7b' ∧ c ≠ ']' ∧ c ≠ '\x7d' := by
  rcases isDigit_bounds c h with ⟨h1, h2⟩
  refine ⟨?_, ?_, ?_, ?_, ?_⟩ <;>
    (rintro rfl; first
      | exact absurd h1 (by decide)
      | exact absurd h2 (by decide))

theorem digitChar_isDigit (d : Nat) (h : d < 10) :
    (digitChar d).isDigit = true := by
  interval_cases d <;> decide

theorem digitChar_val (d : Nat) (h : d < 10) : (digitChar d).toNat - 48 = d := by
  interval_cases d <;> decide

theorem natDigitsAux_acc (fuel : Nat) :
    ∀ n acc, n + 1 ≤ fuel →
      natDigitsAux fuel n acc = natDigitsAux fuel n [] ++ acc := by
  induction fuel with
  | zero => intro n acc h; omega
  | succ fuel ih =>
    intro n acc h
    by_cases hn : n < 10
    · unfold natDigitsAux
      rw [if_pos hn, if_pos hn]
      rfl
    · unfold natDigitsAux
      rw [if_neg hn, if_neg hn]
      have hfl : n / 10 + 1 ≤ fuel := by
        have := Nat.div_lt_self (by omega : 0 < n) (by omega : 1 < 10)
        omega
      rw [ih (n / 10) (digitChar (n % 10) :: acc) hfl,
          ih (n / 10) [digitChar (n % 10)] hfl]
      simp

theorem natDigitsAux_fuel (f1 : Nat) :
    ∀ f2 n, n + 1 ≤ f1 → n + 1 ≤ f2 →
      natDigitsAux f1 n [] = natDigitsAux f2 n [] := by
  induction f1 with
  | zero => intro f2 n h; omega
  | succ f1 ih =>
    intro f2 n h1 h2
    cases f2 with
    | zero => omega
    | succ f2 =>
      by_cases hn : n < 10
      · unfold natDigitsAux
        rw [if_pos hn, if_pos hn]
      · unfold natDigitsAux
        rw [if_neg hn, if_neg hn]
        have hd : n / 10 + 1 ≤ n := by
          have := Nat.div_lt_self (by omega : 0 < n) (by omega : 1 < 10)
          omega
        rw [natDigitsAux_acc f1 (n / 10) _ (by omega),
            natDigitsAux_acc f2 (n / 10) _ (by omega),
            ih f2 (n / 10) (by omega) (by omega)]

theorem natDigitsAux_all_digits (fuel : Nat) :
    ∀ n, n + 1 ≤ fuel →
      ∀ c ∈ natDigitsAux fuel n [], c.isDigit = true := by
  induction fuel with
  | zero => intro n h; omega
  | succ fuel ih =>
    intro n h c hc
    by_cases hn : n < 10
    · unfold natDigitsAux at hc
      rw [if_pos hn] at hc
      simp at hc
      subst hc
      exact digitChar_isDigit n hn
    · unfold natDigitsAux at hc
      rw [if_neg hn] at hc
      have hfl : n / 10 + 1 ≤ fuel := by
        have := Nat.div_lt_self (by omega : 0 < n) (by omega : 1 < 10)
        omega
      rw [natDigitsAux_acc fuel (n / 10) _ hfl] at hc
      rcases List.mem_append.mp hc with hc | hc
      · exact ih (n / 10) hfl c hc
      · simp at hc
        subst hc
        exact digitChar_isDigit (n % 10) (Nat.mod_lt n (by omega))

theorem natDigitsAux_ne_nil (fuel : Nat) :
    ∀ n, n + 1 ≤ fuel → natDigitsAux fuel n [] ≠ [] := by
  induction fuel with
  | zero => intro n h; omega
  | succ fuel ih =>
    intro n h
    by_cases hn : n < 10
    · unfold natDigitsAux
      rw [if_pos hn]
      simp
    · unfold natDigitsAux
      rw [if_neg hn]
      have hfl : n / 10 + 1 ≤ fuel := by
        have := Nat.div_lt_self (by omega : 0 < n) (by omega : 1 < 10)
        omega
      rw [natDigitsAux_acc fuel (n / 10) _ hfl]
      simp

theorem foldDigits_append (acc : Nat) (l : List Char) (d : Char) :
    foldDigits acc (l ++ [d]) = (foldDigits acc l) * 10 + (d.toNat - 48) := by
  unfold foldDigits
  rw [List.foldl_append]
  rfl

theorem foldDigits_natDigitsAux (fuel : Nat) :
    ∀ n acc, n + 1 ≤ fuel →
      foldDigits acc (natDigitsAux fuel n [])
        = acc * 10 ^ (natDigitsAux fuel n []).length + n := by
  induction fuel with
  | zero => intro n acc h; omega
  | succ fuel ih =>
    intro n acc h
    by_cases hn : n < 10
    · unfold natDigitsAux
      rw [if_pos hn]
      show foldDigits acc [digitChar n] = acc * 10 ^ ([digitChar n]).length + n
      unfold foldDigits
      simp [digitChar_val n hn]
    · unfold natDigitsAux
      rw [if_neg hn]
      have hfl : n / 10 + 1 ≤ fuel := by
        have := Nat.div_lt_self (by omega : 0 < n) (by omega : 1 < 10)
        omega
      rw [natDigitsAux_acc fuel (n / 10) _ hfl]
      rw [foldDigits_append, ih (n / 10) acc hfl]
      rw [digitChar_val (n % 10) (Nat.mod_lt n (by omega))]
      rw [List.length_append, List.length_cons, List.length_nil]
      have hdm := Nat.div_add_mod n 10
      rw [Nat.pow_succ]
      ring_nf
      omega

theorem digitsAux_cons_digit (acc : Nat) (d : Char) (r : List Char)
    (hd : d.isDigit = true) :
    digitsAux acc (d :: r) = digitsAux (acc * 10 + (d.toNat - 48)) r := by
  conv_lhs => rw [digitsAux.eq_def]
  dsimp only
  rw [if_pos hd]

theorem digitsAux_digits (ds : List Char) :
    ∀ acc t, (∀ c ∈ ds, c.isDigit = true) →
      digitsAux acc (ds ++ t) = digitsAux (foldDigits acc ds) t := by
  induction ds with
  | nil => intro acc t h; rfl
  | cons d ds ih =>
    intro acc t h
    rw [show (d :: ds) ++ t = d :: (ds ++ t) from rfl,
        digitsAux_cons_digit acc d (ds ++ t) (h d (by simp)),
        ih _ t (fun c hc => h c (by simp [hc]))]
    rfl

theorem digitsAux_stop (acc : Nat) (t : List Char) (h : headNotDigit t = true) :
    digitsAux acc t = (acc, t) := by
  cases t with
  | nil => rfl
  | cons c r =>
    unfold headNotDigit at h
    simp at h
    unfold digitsAux
    rw [if_neg (by simp [h])]

theorem parseDigits_natDigits (n : Nat) (t : List Char)
    (h : headNotDigit t = true) :
    parseDigits (natDigits n ++ t) = some (n, t) := by
  unfold natDigits
  rcases hds : natDigitsAux (n + 1) n [] with _ | ⟨c, cs⟩
  · exact absurd hds (natDigitsAux_ne_nil (n + 1) n (Nat.le_refl _))
  · have hall := natDigitsAux_all_digits (n + 1) n (Nat.le_refl _)
    rw [hds] at hall
    have hc : c.isDigit = true := hall c (by simp)
    show parseDigits (c :: (cs ++ t)) = some (n, t)
    unfold parseDigits
    dsimp only
    rw [if_pos hc]
    rw [show c :: (cs ++ t) = (c :: cs) ++ t from rfl]
    rw [digitsAux_digits (c :: cs) 0 t (fun x hx => hall x hx)]
    rw [digitsAux_stop _ t h]
    have hfold := foldDigits_natDigitsAux (n + 1) n 0 (Nat.le_refl _)
    rw [hds] at hfold
    simp at hfold
    rw [hfold]

theorem skipWs_nonws (c : Char) (s : List Char) (h : isWs4 c = false) :
    skipWs (c :: s) = c :: s := by
  unfold skipWs
  simp [h]

theorem rTC_cons_ne (c : Char) (s : List Char) (h : c ≠ ',') :
    removeTrailingCommas (c :: s) = c :: removeTrailingCommas s := by
  conv_lhs => rw [removeTrailingCommas.eq_def]
  simp [h]

theorem rTC_comma_drop (s : List Char) (h : wsThenCloser s = true) :
    removeTrailingCommas (',' :: s) = removeTrailingCommas s := by
  conv_lhs => rw [removeTrailingCommas.eq_def]
  simp [h]

theorem rTC_comma_keep (s : List Char) (h : wsThenCloser s = false) :
    removeTrailingCommas (',' :: s) = ',' :: removeTrailingCommas s := by
  conv_lhs => rw [removeTrailingCommas.eq_def]
  simp [h]

theorem rTC_skip (s : List Char) :
    ∀ t, (∀ c ∈ s, c ≠ ',') →
      removeTrailingCommas (s ++ t) = s ++ removeTrailingCommas t := by
  induction s with
  | nil => intro t h; rfl
  | cons c rest ih =>
    intro t h
    rw [show (c :: rest) ++ t = c :: (rest ++ t) from rfl]
    rw [rTC_cons_ne c _ (h c (by simp))]
    rw [ih t (fun x hx => h x (by simp [hx]))]
    rfl

theorem mungeStr_cons_ne (c : Char) (s : List Char) (h : c ≠ ',') :
    mungeStr (c :: s) = c :: mungeStr s := by
  conv_lhs => rw [mungeStr.eq_def]
  simp [h]

theorem mungeStr_comma_drop (s : List Char) (h : contWsCloser s = true) :
    mungeStr (',' :: s) = mungeStr s := by
  conv_lhs => rw [mungeStr.eq_def]
  simp [h]

theorem mungeStr_comma_keep (s : List Char) (h : contWsCloser s = false) :
    mungeStr (',' :: s) = ',' :: mungeStr s := by
  conv_lhs => rw [mungeStr.eq_def]
  simp [h]

theorem wsThenCloser_closer (c : Char) (s : List Char) (h : isCloser c = true) :
    wsThenCloser (c :: s) = true := by
  unfold wsThenCloser
  rw [if_pos h]

theorem wsThenCloser_ws (c : Char) (s : List Char) (h1 : isCloser c = false)
    (h2 : isWsPy c = true) : wsThenCloser (c :: s) = wsThenCloser s := by
  conv_lhs => rw [wsThenCloser.eq_def]
  dsimp only
  rw [if_neg (by simp [h1]), if_pos h2]

theorem wsThenCloser_other (c : Char) (s : List Char) (h1 : isCloser c = false)
    (h2 : isWsPy c = false) : wsThenCloser (c :: s) = false := by
  unfold wsThenCloser
  rw [if_neg (by simp [h1]), if_neg (by simp [h2])]

theorem printable_not_wsPy (c : Char) (h32 : 32 ≤ c.toNat) (hsp : c ≠ ' ') :
    isWsPy c = false := by
  unfold isWsPy
  simp only [Bool.or_eq_false_iff, decide_eq_false_iff_not]
  refine ⟨⟨⟨⟨⟨hsp, ?_⟩, ?_⟩, ?_⟩, ?_⟩, ?_⟩ <;>
    (rintro rfl; exact absurd h32 (by decide))

theorem notCloser_isCloser_false (c : Char) (h1 : c ≠ '\x7d') (h2 : c ≠ ']') :
    isCloser c = false := by
  unfold isCloser
  simp [h1, h2]

theorem wfChar_cases (c : Char) (h : wfChar c = true) :
    (32 ≤ c.toNat ∧ c.toNat ≤ 126) ∨ c = '\n' ∨ c = '\t' ∨ c = '\r' := by
  unfold wfChar at h
  simp only [Bool.or_eq_true, Bool.and_eq_true, decide_eq_true_eq] at h
  tauto

theorem escC_plain (c : Char) (h1 : c ≠ '"') (h2 : c ≠ '\\') (h3 : c ≠ '\n')
    (h4 : c ≠ '\t') (h5 : c ≠ '\r') : escC c = [c] := by
  unfold escC
  rw [if_neg h1, if_neg h2, if_neg h3, if_neg h4, if_neg h5]

theorem wfStr_cons (c : Char) (s : List Char) (h : wfStr (c :: s) = true) :
    wfChar c = true ∧ wfStr s = true := by
  unfold wfStr at h
  simpa using h

theorem wsCloser_esc (s : List Char) :
    ∀ t, wfStr s = true →
      wsThenCloser (escStr s ++ '"' :: t) = contWsCloser s := by
  induction s with
  | nil =>
    intro t _
    rw [show escStr [] ++ '"' :: t = '"' :: t from rfl]
    rw [wsThenCloser_other '"' t (by decide) (by decide)]
    rfl
  | cons c rest ih =>
    intro t h
    rcases wfStr_cons c rest h with ⟨hc, hrest⟩
    by_cases h1 : c = '"'
    · subst h1
      rw [show escStr ('"' :: rest) = '\\' :: '"' :: escStr rest from rfl]
      rw [show ('\\' :: '"' :: escStr rest) ++ '"' :: t
          = '\\' :: ('"' :: escStr rest ++ '"' :: t) from rfl]
      rw [wsThenCloser_other '\\' _ (by decide) (by decide)]
      rfl
    · by_cases h2 : c = '\\'
      · subst h2
        rw [show escStr ('\\' :: rest) = '\\' :: '\\' :: escStr rest from rfl]
        rw [show ('\\' :: '\\' :: escStr rest) ++ '"' :: t
            = '\\' :: ('\\' :: escStr rest ++ '"' :: t) from rfl]
        rw [wsThenCloser_other '\\' _ (by decide) (by decide)]
        rfl
      · by_cases h3 : c = '\n'
        · subst h3
          rw [show escStr ('\n' :: rest) = '\\' :: 'n' :: escStr rest from rfl]
          rw [show ('\\' :: 'n' :: escStr rest) ++ '"' :: t
              = '\\' :: ('n' :: escStr rest ++ '"' :: t) from rfl]
          rw [wsThenCloser_other '\\' _ (by decide) (by decide)]
          rfl
        · by_cases h4 : c = '\t'
          · subst h4
            rw [show escStr ('\t' :: rest) = '\\' :: 't' :: escStr rest from rfl]
            rw [show ('\\' :: 't' :: escStr rest) ++ '"' :: t
                = '\\' :: ('t' :: escStr rest ++ '"' :: t) from rfl]
            rw [wsThenCloser_other '\\' _ (by decide) (by decide)]
            rfl
          · by_cases h5 : c = '\r'
            · subst h5
              rw [show escStr ('\r' :: rest) = '\\' :: 'r' :: escStr rest from rfl]
              rw [show ('\\' :: 'r' :: escStr rest) ++ '"' :: t
                  = '\\' :: ('r' :: escStr rest ++ '"' :: t) from rfl]
              rw [wsThenCloser_other '\\' _ (by decide) (by decide)]
              rfl
            · have h32 : 32 ≤ c.toNat := by
                rcases wfChar_cases c hc with ⟨ha, _⟩ | hb | hb | hb
                · exact ha
                · exact absurd hb h3
                · exact absurd hb h4
                · exact absurd hb h5
              rw [show escStr (c :: rest) = escC c ++ escStr rest from rfl]
              rw [escC_plain c h1 h2 h3 h4 h5]
              rw [show ([c] ++ escStr rest) ++ '"' :: t
                  = c :: (escStr rest ++ '"' :: t) from by simp]
              by_cases hcl1 : c = '\x7d'
              · subst hcl1
                rw [wsThenCloser_closer _ _ (by decide)]
                rfl
              · by_cases hcl2 : c = ']'
                · subst hcl2
                  rw [wsThenCloser_closer _ _ (by decide)]
                  rfl
                · have hclo : isCloser c = false := notCloser_isCloser_false c hcl1 hcl2
                  by_cases hsp : c = ' '
                  · subst hsp
                    rw [wsThenCloser_ws _ _ (by decide) (by decide)]
                    rw [ih t hrest]
                    rw [show contWsCloser (' ' :: rest) = contWsCloser rest from rfl]
                  · rw [wsThenCloser_other c _ hclo (printable_not_wsPy c h32 hsp)]
                    unfold contWsCloser
                    rw [if_neg (by simp [hcl1, hcl2]), if_neg hsp]

theorem rTC_escBody (s : List Char) :
    ∀ t, wfStr s = true →
      removeTrailingCommas (escStr s ++ '"' :: t)
        = escStr (mungeStr s) ++ '"' :: removeTrailingCommas t := by
  induction s with
  | nil =>
    intro t _
    rw [show escStr [] ++ '"' :: t = '"' :: t from rfl]
    rw [rTC_cons_ne '"' t (by decide)]
    rfl
  | cons c rest ih =>
    intro t h
    rcases wfStr_cons c rest h with ⟨hc, hrest⟩
    by_cases hcomma : c = ','
    · subst hcomma
      rw [show escStr (',' :: rest) = ',' :: escStr rest from rfl]
      rw [show (',' :: escStr rest) ++ '"' :: t
          = ',' :: (escStr rest ++ '"' :: t) from rfl]
      by_cases hB : contWsCloser rest = true
      · rw [rTC_comma_drop _ (by rw [wsCloser_esc rest t hrest]; exact hB)]
        rw [ih t hrest]
        rw [mungeStr_comma_drop rest hB]
      · have hB2 : contWsCloser rest = false := by
          cases hx : contWsCloser rest
          · rfl
          · exact absurd hx hB
        rw [rTC_comma_keep _ (by rw [wsCloser_esc rest t hrest]; exact hB2)]
        rw [ih t hrest]
        rw [mungeStr_comma_keep rest hB2]
        rfl
    · by_cases h1 : c = '"'
      · subst h1
        rw [show escStr ('"' :: rest) = '\\' :: '"' :: escStr rest from rfl]
        rw [show ('\\' :: '"' :: escStr rest) ++ '"' :: t
            = '\\' :: ('"' :: (escStr rest ++ '"' :: t)) from rfl]
        rw [rTC_cons_ne '\\' _ (by decide), rTC_cons_ne '"' _ (by decide)]
        rw [ih t hrest, mungeStr_cons_ne _ _ (by decide)]
        rfl
      · by_cases h2 : c = '\\'
        · subst h2
          rw [show escStr ('\\' :: rest) = '\\' :: '\\' :: escStr rest from rfl]
          rw [show ('\\' :: '\\' :: escStr rest) ++ '"' :: t
              = '\\' :: ('\\' :: (escStr rest ++ '"' :: t)) from rfl]
          rw [rTC_cons_ne '\\' _ (by decide), rTC_cons_ne '\\' _ (by decide)]
          rw [ih t hrest, mungeStr_cons_ne _ _ (by decide)]
          rfl
        · by_cases h3 : c = '\n'
          · subst h3
            rw [show escStr ('\n' :: rest) = '\\' :: 'n' :: escStr rest from rfl]
            rw [show ('\\' :: 'n' :: escStr rest) ++ '"' :: t
                = '\\' :: ('n' :: (escStr rest ++ '"' :: t)) from rfl]
            rw [rTC_cons_ne '\\' _ (by decide), rTC_cons_ne 'n' _ (by decide)]
            rw [ih t hrest, mungeStr_cons_ne _ _ (by decide)]
            rfl
          · by_cases h4 : c = '\t'
            · subst h4
              rw [show escStr ('\t' :: rest) = '\\' :: 't' :: escStr rest from rfl]
              rw [show ('\\' :: 't' :: escStr rest) ++ '"' :: t
                  = '\\' :: ('t' :: (escStr rest ++ '"' :: t)) from rfl]
              rw [rTC_cons_ne '\\' _ (by decide), rTC_cons_ne 't' _ (by decide)]
              rw [ih t hrest, mungeStr_cons_ne _ _ (by decide)]
              rfl
            · by_cases h5 : c = '\r'
              · subst h5
                rw [show escStr ('\r' :: rest) = '\\' :: 'r' :: escStr rest from rfl]
                rw [show ('\\' :: 'r' :: escStr rest) ++ '"' :: t
                    = '\\' :: ('r' :: (escStr rest ++ '"' :: t)) from rfl]
                rw [rTC_cons_ne '\\' _ (by decide), rTC_cons_ne 'r' _ (by decide)]
                rw [ih t hrest, mungeStr_cons_ne _ _ (by decide)]
                rfl
              · rw [show escStr (c :: rest) = escC c ++ escStr rest from rfl]
                rw [escC_plain c h1 h2 h3 h4 h5]
                rw [show ([c] ++ escStr rest) ++ '"' :: t
                    = c :: (escStr rest ++ '"' :: t) from by simp]
                rw [rTC_cons_ne c _ hcomma]
                rw [ih t hrest, mungeStr_cons_ne _ _ hcomma]
                rw [show escStr (c :: mungeStr rest) = escC c ++ escStr (mungeStr rest) from rfl]
                rw [escC_plain c h1 h2 h3 h4 h5]
                rfl

theorem mungeStr_wf (s : List Char) (h : wfStr s = true) :
    wfStr (mungeStr s) = true := by
  induction s with
  | nil => rfl
  | cons c rest ih =>
    rcases wfStr_cons c rest h with ⟨hc, hrest⟩
    by_cases hcomma : c = ','
    · subst hcomma
      by_cases hB : contWsCloser rest = true
      · rw [mungeStr_comma_drop rest hB]
        exact ih hrest
      · have hB2 : contWsCloser rest = false := by
          cases hx : contWsCloser rest
          · rfl
          · exact absurd hx hB
        rw [mungeStr_comma_keep rest hB2]
        unfold wfStr
        rw [ih hrest]
        simp [hc]
    · rw [mungeStr_cons_ne c rest hcomma]
      unfold wfStr
      rw [ih hrest]
      simp [hc]

theorem parseStringBody_esc (s : List Char) :
    ∀ t, wfStr s = true →
      parseStringBody (escStr s ++ '"' :: t) = some (s, t) := by
  induction s with
  | nil =>
    intro t _
    rw [show escStr [] ++ '"' :: t = '"' :: t from rfl]
    rw [parseStringBody.eq_def]
    simp
  | cons c rest ih =>
    intro t h
    rcases wfStr_cons c rest h with ⟨hc, hrest⟩
    by_cases h1 : c = '"'
    · subst h1
      rw [show escStr ('"' :: rest) ++ '"' :: t
          = '\\' :: '"' :: (escStr rest ++ '"' :: t) from rfl]
      rw [show parseStringBody ('\\' :: '"' :: (escStr rest ++ '"' :: t))
          = (match parseStringBody (escStr rest ++ '"' :: t) with
             | none => none
             | some (s, r) => some ('"' :: s, r)) from rfl]
      rw [ih t hrest]
    · by_cases h2 : c = '\\'
      · subst h2
        rw [show escStr ('\\' :: rest) ++ '"' :: t
            = '\\' :: '\\' :: (escStr rest ++ '"' :: t) from rfl]
        rw [show parseStringBody ('\\' :: '\\' :: (escStr rest ++ '"' :: t))
            = (match parseStringBody (escStr rest ++ '"' :: t) with
               | none => none
               | some (s, r) => some ('\\' :: s, r)) from rfl]
        rw [ih t hrest]
      · by_cases h3 : c = '\n'
        · subst h3
          rw [show escStr ('\n' :: rest) ++ '"' :: t
              = '\\' :: 'n' :: (escStr rest ++ '"' :: t) from rfl]
          rw [show parseStringBody ('\\' :: 'n' :: (escStr rest ++ '"' :: t))
              = (match parseStringBody (escStr rest ++ '"' :: t) with
                 | none => none
                 | some (s, r) => some ('\n' :: s, r)) from rfl]
          rw [ih t hrest]
        · by_cases h4 : c = '\t'
          · subst h4
            rw [show escStr ('\t' :: rest) ++ '"' :: t
                = '\\' :: 't' :: (escStr rest ++ '"' :: t) from rfl]
            rw [show parseStringBody ('\\' :: 't' :: (escStr rest ++ '"' :: t))
                = (match parseStringBody (escStr rest ++ '"' :: t) with
                   | none => none
                   | some (s, r) => some ('\t' :: s, r)) from rfl]
            rw [ih t hrest]
          · by_cases h5 : c = '\r'
            · subst h5
              rw [show escStr ('\r' :: rest) ++ '"' :: t
                  = '\\' :: 'r' :: (escStr rest ++ '"' :: t) from rfl]
              rw [show parseStringBody ('\\' :: 'r' :: (escStr rest ++ '"' :: t))
                  = (match parseStringBody (escStr rest ++ '"' :: t) with
                     | none => none
                     | some (s, r) => some ('\r' :: s, r)) from rfl]
              rw [ih t hrest]
            · have h32 : 32 ≤ c.toNat := by
                rcases wfChar_cases c hc with ⟨ha, _⟩ | hb | hb | hb
                · exact ha
                · exact absurd hb h3
                · exact absurd hb h4
                · exact absurd hb h5
              rw [show escStr (c :: rest) = escC c ++ escStr rest from rfl]
              rw [escC_plain c h1 h2 h3 h4 h5]
              rw [show ([c] ++ escStr rest) ++ '"' :: t
                  = c :: (escStr rest ++ '"' :: t) from by simp]
              conv_lhs => rw [parseStringBody.eq_def]
              dsimp only
              rw [if_neg h1, if_neg h2, if_neg (by omega : ¬(c.toNat < 32))]
              rw [ih t hrest]

theorem printJ_head (v : Json) :
    ∃ c cs, printJ v = c :: cs ∧ c ≠ ',' ∧ isWs4 c = false ∧ isWsPy c = false ∧
      isCloser c = false ∧ c ≠ ']' ∧ c ≠ '\x7d' := by
  cases v with
  | null =>
    exact ⟨'n', _, rfl, by decide, by decide, by decide, by decide, by decide, by decide⟩
  | bool b =>
    cases b with
    | true =>
      exact ⟨'t', _, rfl, by decide, by decide, by decide, by decide, by decide, by decide⟩
    | false =>
      exact ⟨'f', _, rfl, by decide, by decide, by decide, by decide, by decide, by decide⟩
  | num n =>
    rcases hds : natDigits n with _ | ⟨c, cs⟩
    · exact absurd hds (natDigitsAux_ne_nil (n + 1) n (Nat.le_refl _))
    · have hall := natDigitsAux_all_digits (n + 1) n (Nat.le_refl _)
      rw [show natDigitsAux (n + 1) n [] = natDigits n from rfl, hds] at hall
      have hc : c.isDigit = true := hall c (by simp)
      rcases digit_ne_quote c hc with ⟨_, _, _, hne1, hne2⟩
      exact ⟨c, cs, hds, digit_ne_comma c hc, digit_not_ws4 c hc,
        digit_not_wsPy c hc, digit_not_closer c hc, hne1, hne2⟩
  | str s0 =>
    exact ⟨'"', _, rfl, by decide, by decide, by decide, by decide, by decide, by decide⟩
  | arr xs =>
    exact ⟨'[', _, rfl, by decide, by decide, by decide, by decide, by decide, by decide⟩
  | obj kvs =>
    exact ⟨'\x7b', _, rfl, by decide, by decide, by decide, by decide, by decide, by decide⟩

theorem printJItems_head (x : Json) (xs : JsonItems) :
    ∃ c cs, printJItems (.cons x xs) = c :: cs ∧ c ≠ ',' ∧ isWs4 c = false ∧
      isWsPy c = false ∧ isCloser c = false ∧ c ≠ ']' ∧ c ≠ '\x7d' := by
  rcases printJ_head x with ⟨c, cs, heq, hfacts⟩
  cases xs with
  | nil => exact ⟨c, cs, by rw [show printJItems (.cons x .nil) = printJ x from rfl, heq], hfacts⟩
  | cons y ys =>
    refine ⟨c, cs ++ ',' :: printJItems (.cons y ys), ?_, hfacts⟩
    rw [show printJItems (.cons x (.cons y ys))
        = printJ x ++ ',' :: printJItems (.cons y ys) from rfl, heq]
    rfl

theorem printL_head (v : LJson) :
    ∃ c cs, printL v = c :: cs ∧ c ≠ ',' ∧ isWs4 c = false ∧ isWsPy c = false ∧
      isCloser c = false ∧ c ≠ ']' ∧ c ≠ '\x7d' := by
  cases v with
  | null =>
    exact ⟨'n', _, rfl, by decide, by decide, by decide, by decide, by decide, by decide⟩
  | bool b =>
    cases b with
    | true =>
      exact ⟨'t', _, rfl, by decide, by decide, by decide, by decide, by decide, by decide⟩
    | false =>
      exact ⟨'f', _, rfl, by decide, by decide, by decide, by decide, by decide, by decide⟩
  | num n =>
    rcases hds : natDigits n with _ | ⟨c, cs⟩
    · exact absurd hds (natDigitsAux_ne_nil (n + 1) n (Nat.le_refl _))
    · have hall := natDigitsAux_all_digits (n + 1) n (Nat.le_refl _)
      rw [show natDigitsAux (n + 1) n [] = natDigits n from rfl, hds] at hall
      have hc : c.isDigit = true := hall c (by simp)
      rcases digit_ne_quote c hc with ⟨_, _, _, hne1, hne2⟩
      exact ⟨c, cs, hds, digit_ne_comma c hc, digit_not_ws4 c hc,
        digit_not_wsPy c hc, digit_not_closer c hc, hne1, hne2⟩
  | str s0 =>
    exact ⟨'"', _, rfl, by decide, by decide, by decide, by decide, by decide, by decide⟩
  | arr xs f =>
    cases xs with
    | nil =>
      exact ⟨'[', _, rfl, by decide, by decide, by decide, by decide, by decide, by decide⟩
    | cons y ys =>
      exact ⟨'[', _, rfl, by decide, by decide, by decide, by decide, by decide, by decide⟩
  | obj kvs f =>
    cases kvs with
    | nil =>
      exact ⟨'\x7b', _, rfl, by decide, by decide, by decide, by decide, by decide, by decide⟩
    | cons k v ks =>
      exact ⟨'\x7b', _, rfl, by decide, by decide, by decide, by decide, by decide, by decide⟩

theorem printLItems_head (x : LJson) (xs : LJsonItems) :
    ∃ c cs, printLItems (.cons x xs) = c :: cs ∧ c ≠ ',' ∧ isWs4 c = false ∧
      isWsPy c = false ∧ isCloser c = false ∧ c ≠ ']' ∧ c ≠ '\x7d' := by
  rcases printL_head x with ⟨c, cs, heq, hfacts⟩
  cases xs with
  | nil => exact ⟨c, cs, by rw [show printLItems (.cons x .nil) = printL x from rfl, heq], hfacts⟩
  | cons y ys =>
    refine ⟨c, cs ++ ',' :: printLItems (.cons y ys), ?_, hfacts⟩
    rw [show printLItems (.cons x (.cons y ys))
        = printL x ++ ',' :: printLItems (.cons y ys) from rfl, heq]
    rfl

theorem tailOkB_head (v : Json) (c : Char) (t : List Char)
    (h : c.isDigit = false) : tailOkB v (c :: t) = true := by
  cases v <;> simp [tailOkB, headNotDigit, h]

theorem tailOkB_nil (v : Json) : tailOkB v [] = true := by
  cases v <;> rfl

theorem sizeJ_pos (v : Json) : 1 ≤ sizeJ v := by
  cases v <;> simp [sizeJ]

theorem sizeItems_cons_pos (x : Json) (xs : JsonItems) :
    1 ≤ sizeItems (.cons x xs) := by
  simp [sizeItems]

theorem sizeFields_cons_pos (k : List Char) (v : Json) (kvs : JsonFields) :
    1 ≤ sizeFields (.cons k v kvs) := by
  simp [sizeFields]

theorem parseVal_step_quote (fuel : Nat) (X : List Char) :
    parseVal (fuel + 1) ('"' :: X)
      = match parseStringBody X with
        | none => none
        | some (cs, rest) => some (.str cs, rest) := rfl

theorem parseVal_step_digit (fuel : Nat) (c : Char) (X : List Char)
    (h : c.isDigit = true) :
    parseVal (fuel + 1) (c :: X)
      = match parseDigits (c :: X) with
        | none => none
        | some (n, rest) => some (.num n, rest) := by
  conv_lhs => rw [parseVal.eq_def]
  dsimp only
  rw [skipWs_nonws c X (digit_not_ws4 c h)]
  dsimp only
  rw [if_pos h]

theorem parseVal_step_lbrack (fuel : Nat) (X : List Char) :
    parseVal (fuel + 1) ('[' :: X)
      = (match skipWs X with
         | [] => none
         | c2 :: r2 =>
           if c2 = ']' then some (.arr .nil, r2)
           else
             match parseItems fuel (c2 :: r2) with
             | none => none
             | some (xs, rest) => some (.arr xs, rest)) := rfl

theorem parseVal_step_lbrace (fuel : Nat) (X : List Char) :
    parseVal (fuel + 1) ('\x7b' :: X)
      = (match skipWs X with
         | [] => none
         | c2 :: r2 =>
           if c2 = '\x7d' then some (.obj .nil, r2)
           else
             match parseFields fuel (c2 :: r2) with
             | none => none
             | some (kvs, rest) => some (.obj kvs, rest)) := rfl

theorem parseItems_step (fuel : Nat) (s : List Char) :
    parseItems (fuel + 1) s
      = (match parseVal fuel s with
         | none => none
         | some (v, r) =>
           match skipWs r with
           | ',' :: r2 =>
             (match parseItems fuel r2 with
              | none => none
              | some (vs, rest) => some (.cons v vs, rest))
           | ']' :: r2 => some (.cons v .nil, r2)
           | _ => none) := rfl

theorem parseFields_step (fuel : Nat) (X : List Char) :
    parseFields (fuel + 1) ('"' :: X)
      = (match parseStringBody X with
         | none => none
         | some (k, r2) =>
           match skipWs r2 with
           | ':' :: r3 =>
             (match parseVal fuel r3 with
              | none => none
              | some (v, r4) =>
                match skipWs r4 with
                | ',' :: r5 =>
                  (match parseFields fuel r5 with
                   | none => none
                   | some (kvs, rest) => some (.cons k v kvs, rest))
                | '\x7d' :: r5 => some (.cons k v .nil, r5)
                | _ => none)
           | _ => none) := rfl

theorem parse_print_all (fuel : Nat) :
    (∀ v t, wfJ v = true → sizeJ v ≤ fuel → tailOkB v t = true →
      parseVal fuel (printJ v ++ t) = some (v, t)) ∧
    (∀ x xs t, wfJItems (.cons x xs) = true → sizeItems (.cons x xs) ≤ fuel →
      parseItems fuel (printJItems (.cons x xs) ++ ']' :: t)
        = some (JsonItems.cons x xs, t)) ∧
    (∀ k v kvs t, wfJFields (.cons k v kvs) = true →
      sizeFields (.cons k v kvs) ≤ fuel →
      parseFields fuel (printJFields (.cons k v kvs) ++ '\x7d' :: t)
        = some (JsonFields.cons k v kvs, t)) := by
  induction fuel with
  | zero =>
    refine ⟨?_, ?_, ?_⟩
    · intro v t _ hsz _
      exact absurd hsz (by have := sizeJ_pos v; omega)
    · intro x xs t _ hsz
      exact absurd hsz (by have := sizeItems_cons_pos x xs; omega)
    · intro k v kvs t _ hsz
      exact absurd hsz (by have := sizeFields_cons_pos k v kvs; omega)
  | succ fuel ih =>
    obtain ⟨ihv, ihi, ihf⟩ := ih
    refine ⟨?_, ?_, ?_⟩
    · intro v t hwf hsz htail
      cases v with
      | null => rfl
      | bool b => cases b <;> rfl
      | num n =>
        show parseVal (fuel + 1) (natDigits n ++ t) = some (.num n, t)
        rcases hds : natDigits n with _ | ⟨c, cs⟩
        · exact absurd hds (natDigitsAux_ne_nil (n + 1) n (Nat.le_refl _))
        · have hall := natDigitsAux_all_digits (n + 1) n (Nat.le_refl _)
          rw [show natDigitsAux (n + 1) n [] = natDigits n from rfl, hds] at hall
          have hc : c.isDigit = true := hall c (by simp)
          rw [show (c :: cs) ++ t = c :: (cs ++ t) from rfl]
          rw [parseVal_step_digit fuel c (cs ++ t) hc]
          rw [show c :: (cs ++ t) = natDigits n ++ t from by rw [hds]; rfl]
          rw [parseDigits_natDigits n t htail]
      | str s0 =>
        show parseVal (fuel + 1) (('"' :: (escStr s0 ++ ['"'])) ++ t)
          = some (.str s0, t)
        rw [show ('"' :: (escStr s0 ++ ['"'])) ++ t
            = '"' :: (escStr s0 ++ '"' :: t) from by simp]
        rw [parseVal_step_quote fuel (escStr s0 ++ '"' :: t)]
        rw [parseStringBody_esc s0 t hwf]
      | arr xs =>
        cases xs with
        | nil => rfl
        | cons x xs =>
          have hsz2 : sizeItems (JsonItems.cons x xs) ≤ fuel := by
            have h1 : sizeJ (Json.arr (JsonItems.cons x xs))
                = 1 + sizeItems (JsonItems.cons x xs) := rfl
            omega
          rcases printJItems_head x xs with ⟨c, cs, heq, hnc, hw4, hwp, hcl, hnrb, hnbr⟩
          show parseVal (fuel + 1)
              (('[' :: (printJItems (JsonItems.cons x xs) ++ [']'])) ++ t)
            = some (.arr (.cons x xs), t)
          rw [show ('[' :: (printJItems (JsonItems.cons x xs) ++ [']'])) ++ t
              = '[' :: (printJItems (JsonItems.cons x xs) ++ ']' :: t) from by simp]
          rw [parseVal_step_lbrack]
          rw [heq]
          rw [show (c :: cs) ++ ']' :: t = c :: (cs ++ ']' :: t) from rfl]
          rw [skipWs_nonws c (cs ++ ']' :: t) hw4]
          dsimp only
          rw [if_neg hnrb]
          rw [show c :: (cs ++ ']' :: t)
              = printJItems (JsonItems.cons x xs) ++ ']' :: t from by rw [heq]; rfl]
          rw [ihi x xs t hwf hsz2]
      | obj kvs =>
        cases kvs with
        | nil => rfl
        | cons k v ks =>
          have hsz2 : sizeFields (JsonFields.cons k v ks) ≤ fuel := by
            have h1 : sizeJ (Json.obj (JsonFields.cons k v ks))
                = 1 + sizeFields (JsonFields.cons k v ks) := rfl
            omega
          have hq : ∃ cs, printJFields (JsonFields.cons k v ks) = '"' :: cs := by
            cases ks with
            | nil => exact ⟨_, rfl⟩
            | cons k2 v2 ks2 => exact ⟨_, rfl⟩
          obtain ⟨cs, hcs⟩ := hq
          show parseVal (fuel + 1)
              (('\x7b' :: (printJFields (JsonFields.cons k v ks) ++ ['\x7d'])) ++ t)
            = some (.obj (.cons k v ks), t)
          rw [show ('\x7b' :: (printJFields (JsonFields.cons k v ks) ++ ['\x7d'])) ++ t
              = '\x7b' :: (printJFields (JsonFields.cons k v ks) ++ '\x7d' :: t)
              from by simp]
          rw [parseVal_step_lbrace]
          rw [hcs]
          rw [show ('"' :: cs) ++ '\x7d' :: t = '"' :: (cs ++ '\x7d' :: t) from rfl]
          rw [skipWs_nonws '"' (cs ++ '\x7d' :: t) (by decide)]
          dsimp only
          rw [if_neg (by decide : ¬('"' = '\x7d'))]
          rw [show '"' :: (cs ++ '\x7d' :: t)
              = printJFields (JsonFields.cons k v ks) ++ '\x7d' :: t from by rw [hcs]; rfl]
          rw [ihf k v ks t hwf hsz2]
    · intro x xs t hwf hsz
      have h1 : wfJItems (JsonItems.cons x xs) = (wfJ x && wfJItems xs) := rfl
      rw [h1] at hwf
      simp only [Bool.and_eq_true] at hwf
      obtain ⟨hwx, hwxs⟩ := hwf
      have hszp : 1 + max (sizeJ x) (sizeItems xs) ≤ fuel + 1 := by
        have h2 : sizeItems (JsonItems.cons x xs)
            = 1 + max (sizeJ x) (sizeItems xs) := rfl
        omega
      have hszx : sizeJ x ≤ fuel := by omega
      have hszxs : sizeItems xs ≤ fuel := by omega
      cases xs with
      | nil =>
        rw [show printJItems (JsonItems.cons x .nil) ++ ']' :: t
            = printJ x ++ ']' :: t from rfl]
        rw [parseItems_step]
        rw [ihv x (']' :: t) hwx hszx (tailOkB_head x ']' t (by decide))]
        rfl
      | cons y ys =>
        rw [show printJItems (JsonItems.cons x (JsonItems.cons y ys)) ++ ']' :: t
            = printJ x ++ ',' :: (printJItems (JsonItems.cons y ys) ++ ']' :: t)
            from by
          rw [show printJItems (JsonItems.cons x (JsonItems.cons y ys))
              = printJ x ++ ',' :: printJItems (JsonItems.cons y ys) from rfl]
          simp]
        rw [parseItems_step]
        rw [ihv x (',' :: (printJItems (JsonItems.cons y ys) ++ ']' :: t)) hwx hszx
          (tailOkB_head x ',' _ (by decide))]
        show (match parseItems fuel (printJItems (JsonItems.cons y ys) ++ ']' :: t) with
              | none => none
              | some (vs, rest) => some (JsonItems.cons x vs, rest))
            = some (JsonItems.cons x (JsonItems.cons y ys), t)
        rw [ihi y ys t hwxs hszxs]
    · intro k v kvs t hwf hsz
      have h1 : wfJFields (JsonFields.cons k v kvs)
          = ((wfStr k && wfJ v) && wfJFields kvs) := rfl
      rw [h1] at hwf
      simp only [Bool.and_eq_true] at hwf
      obtain ⟨⟨hwk, hwv⟩, hwkvs⟩ := hwf
      have hszp : 1 + max (sizeJ v) (sizeFields kvs) ≤ fuel + 1 := by
        have h2 : sizeFields (JsonFields.cons k v kvs)
            = 1 + max (sizeJ v) (sizeFields kvs) := rfl
        omega
      have hszv : sizeJ v ≤ fuel := by omega
      have hszkvs : sizeFields kvs ≤ fuel := by omega
      cases kvs with
      | nil =>
        rw [show printJFields (JsonFields.cons k v .nil) ++ '\x7d' :: t
            = '"' :: (escStr k ++ '"' :: ':' :: (printJ v ++ '\x7d' :: t)) from by
          rw [show printJFields (JsonFields.cons k v .nil)
              = '"' :: (escStr k ++ '"' :: ':' :: printJ v) from rfl]
          simp]
        rw [parseFields_step]
        rw [parseStringBody_esc k (':' :: (printJ v ++ '\x7d' :: t)) hwk]
        show (match parseVal fuel (printJ v ++ '\x7d' :: t) with
              | none => none
              | some (v2, r4) =>
                match skipWs r4 with
                | ',' :: r5 =>
                  (match parseFields fuel r5 with
                   | none => none
                   | some (kvs, rest) => some (JsonFields.cons k v2 kvs, rest))
                | '\x7d' :: r5 => some (JsonFields.cons k v2 JsonFields.nil, r5)
                | _ => none)
            = some (JsonFields.cons k v JsonFields.nil, t)
        rw [ihv v ('\x7d' :: t) hwv hszv (tailOkB_head v '\x7d' t (by decide))]
        rfl
      | cons k2 v2 ks =>
        rw [show printJFields (JsonFields.cons k v (JsonFields.cons k2 v2 ks))
              ++ '\x7d' :: t
            = '"' :: (escStr k ++ '"' :: ':' :: (printJ v ++ ',' ::
                (printJFields (JsonFields.cons k2 v2 ks) ++ '\x7d' :: t))) from by
          rw [show printJFields (JsonFields.cons k v (JsonFields.cons k2 v2 ks))
              = ('"' :: (escStr k ++ '"' :: ':' :: printJ v)) ++
                ',' :: printJFields (JsonFields.cons k2 v2 ks) from rfl]
          simp]
        rw [parseFields_step]
        rw [parseStringBody_esc k
          (':' :: (printJ v ++ ',' ::
            (printJFields (JsonFields.cons k2 v2 ks) ++ '\x7d' :: t))) hwk]
        show (match parseVal fuel (printJ v ++ ',' ::
                (printJFields (JsonFields.cons k2 v2 ks) ++ '\x7d' :: t)) with
              | none => none
              | some (v3, r4) =>
                match skipWs r4 with
                | ',' :: r5 =>
                  (match parseFields fuel r5 with
                   | none => none
                   | some (kvs, rest) => some (JsonFields.cons k v3 kvs, rest))
                | '\x7d' :: r5 => some (JsonFields.cons k v3 JsonFields.nil, r5)
                | _ => none)
            = some (JsonFields.cons k v (JsonFields.cons k2 v2 ks), t)
        rw [ihv v (',' :: (printJFields (JsonFields.cons k2 v2 ks) ++ '\x7d' :: t))
          hwv hszv (tailOkB_head v ',' _ (by decide))]
        show (match parseFields fuel
                (printJFields (JsonFields.cons k2 v2 ks) ++ '\x7d' :: t) with
              | none => none
              | some (kvs, rest) => some (JsonFields.cons k v kvs, rest))
            = some (JsonFields.cons k v (JsonFields.cons k2 v2 ks), t)
        rw [ihf k2 v2 ks t hwkvs hszkvs]

theorem sizeJN_pos (v : Json) : 1 ≤ sizeJN v := by
  cases v <;> simp [sizeJN]

theorem sizeL_pos (v : LJson) : 1 ≤ sizeL v := by
  cases v <;> simp [sizeL]

theorem sizeJ_le_printJ (N : Nat) :
    (∀ v, sizeJN v ≤ N → sizeJ v ≤ (printJ v).length) ∧
    (∀ xs, sizeJNItems xs ≤ N → sizeItems xs ≤ (printJItems xs).length + 1) ∧
    (∀ kvs, sizeJNFields kvs ≤ N →
      sizeFields kvs ≤ (printJFields kvs).length + 1) := by
  induction N with
  | zero =>
    refine ⟨?_, ?_, ?_⟩
    · intro v hv
      exact absurd hv (by have := sizeJN_pos v; omega)
    · intro xs h
      cases xs with
      | nil => simp [sizeItems]
      | cons x xs2 =>
        exact absurd h (by
          have h1 : sizeJNItems (JsonItems.cons x xs2)
              = 1 + sizeJN x + sizeJNItems xs2 := rfl
          omega)
    · intro kvs h
      cases kvs with
      | nil => simp [sizeFields]
      | cons k v kvs2 =>
        exact absurd h (by
          have h1 : sizeJNFields (JsonFields.cons k v kvs2)
              = 1 + sizeJN v + sizeJNFields kvs2 := rfl
          omega)
  | succ N ih =>
    obtain ⟨ihv, ihi, ihf⟩ := ih
    refine ⟨?_, ?_, ?_⟩
    · intro v hv
      cases v with
      | null => decide
      | bool b => cases b <;> decide
      | num n =>
        show 1 ≤ (natDigits n).length
        rcases hd : natDigits n with _ | ⟨c, cs⟩
        · exact absurd hd (natDigitsAux_ne_nil (n + 1) n (Nat.le_refl _))
        · simp
      | str s0 =>
        show 1 ≤ ('"' :: (escStr s0 ++ ['"'])).length
        simp
      | arr xs =>
        cases xs with
        | nil => decide
        | cons x xs2 =>
          have h1 : sizeJNItems (JsonItems.cons x xs2) ≤ N := by
            have h2 : sizeJN (Json.arr (JsonItems.cons x xs2))
                = 1 + sizeJNItems (JsonItems.cons x xs2) := rfl
            omega
          have h3 := ihi (JsonItems.cons x xs2) h1
          show 1 + sizeItems (JsonItems.cons x xs2)
            ≤ ('[' :: (printJItems (JsonItems.cons x xs2) ++ [']'])).length
          simp only [List.length_cons, List.length_append, List.length_nil]
          omega
      | obj kvs =>
        cases kvs with
        | nil => decide
        | cons k v kvs2 =>
          have h1 : sizeJNFields (JsonFields.cons k v kvs2) ≤ N := by
            have h2 : sizeJN (Json.obj (JsonFields.cons k v kvs2))
                = 1 + sizeJNFields (JsonFields.cons k v kvs2) := rfl
            omega
          have h3 := ihf (JsonFields.cons k v kvs2) h1
          show 1 + sizeFields (JsonFields.cons k v kvs2)
            ≤ ('\x7b' :: (printJFields (JsonFields.cons k v kvs2) ++ ['\x7d'])).length
          simp only [List.length_cons, List.length_append, List.length_nil]
          omega
    · intro xs h
      cases xs with
      | nil => simp [sizeItems]
      | cons x xs2 =>
        have h2 : sizeJNItems (JsonItems.cons x xs2)
            = 1 + sizeJN x + sizeJNItems xs2 := rfl
        have hx1 : sizeJN x ≤ N := by omega
        have hx2 : sizeJNItems xs2 ≤ N := by omega
        have hvx := ihv x hx1
        cases xs2 with
        | nil =>
          show 1 + max (sizeJ x) (sizeItems JsonItems.nil)
            ≤ (printJ x).length + 1
          have h4 : sizeItems JsonItems.nil = 0 := rfl
          omega
        | cons y ys =>
          have hyy := ihi (JsonItems.cons y ys) hx2
          show 1 + max (sizeJ x) (sizeItems (JsonItems.cons y ys))
            ≤ (printJ x ++ ',' :: printJItems (JsonItems.cons y ys)).length + 1
          have h5 : 1 ≤ (printJ x).length := by
            rcases printJ_head x with ⟨c, cs, heq, _⟩
            rw [heq]
            simp
          simp only [List.length_append, List.length_cons]
          omega
    · intro kvs h
      cases kvs with
      | nil => simp [sizeFields]
      | cons k v kvs2 =>
        have h2 : sizeJNFields (JsonFields.cons k v kvs2)
            = 1 + sizeJN v + sizeJNFields kvs2 := rfl
        have hx1 : sizeJN v ≤ N := by omega
        have hx2 : sizeJNFields kvs2 ≤ N := by omega
        have hvv := ihv v hx1
        cases kvs2 with
        | nil =>
          show 1 + max (sizeJ v) (sizeFields JsonFields.nil)
            ≤ ('"' :: (escStr k ++ '"' :: ':' :: printJ v)).length + 1
          have h4 : sizeFields JsonFields.nil = 0 := rfl
          simp only [List.length_cons, List.length_append]
          omega
        | cons k2 v2 ks =>
          have hyy := ihf (JsonFields.cons k2 v2 ks) hx2
          show 1 + max (sizeJ v) (sizeFields (JsonFields.cons k2 v2 ks))
            ≤ (('"' :: (escStr k ++ '"' :: ':' :: printJ v)) ++
                ',' :: printJFields (JsonFields.cons k2 v2 ks)).length + 1
          simp only [List.length_append, List.length_cons]
          omega

theorem munge_wf (N : Nat) :
    (∀ v, wfL v = true → sizeL v ≤ N → wfJ (mungeJ v) = true) ∧
    (∀ xs, wfLItems xs = true → sizeLItems xs ≤ N →
      wfJItems (mungeItems xs) = true) ∧
    (∀ kvs, wfLFields kvs = true → sizeLFields kvs ≤ N →
      wfJFields (mungeFields kvs) = true) := by
  induction N with
  | zero =>
    refine ⟨?_, ?_, ?_⟩
    · intro v _ hv
      exact absurd hv (by have := sizeL_pos v; omega)
    · intro xs _ h
      cases xs with
      | nil => rfl
      | cons x xs2 =>
        exact absurd h (by
          have h1 : sizeLItems (LJsonItems.cons x xs2)
              = 1 + sizeL x + sizeLItems xs2 := rfl
          have := sizeL_pos x
          omega)
    · intro kvs _ h
      cases kvs with
      | nil => rfl
      | cons k v kvs2 =>
        exact absurd h (by
          have h1 : sizeLFields (LJsonFields.cons k v kvs2)
              = 1 + sizeL v + sizeLFields kvs2 := rfl
          have := sizeL_pos v
          omega)
  | succ N ih =>
    obtain ⟨ihv, ihi, ihf⟩ := ih
    refine ⟨?_, ?_, ?_⟩
    · intro v hwf hv
      cases v with
      | null => rfl
      | bool b => rfl
      | num n => rfl
      | str s0 => exact mungeStr_wf s0 hwf
      | arr xs f =>
        have h1 : sizeLItems xs ≤ N := by
          have h2 : sizeL (LJson.arr xs f) = 1 + sizeLItems xs := rfl
          omega
        show wfJItems (mungeItems xs) = true
        exact ihi xs hwf h1
      | obj kvs f =>
        have h1 : sizeLFields kvs ≤ N := by
          have h2 : sizeL (LJson.obj kvs f) = 1 + sizeLFields kvs := rfl
          omega
        show wfJFields (mungeFields kvs) = true
        exact ihf kvs hwf h1
    · intro xs hwf h
      cases xs with
      | nil => rfl
      | cons x xs2 =>
        have h1 : wfLItems (LJsonItems.cons x xs2) = (wfL x && wfLItems xs2) := rfl
        rw [h1] at hwf
        simp only [Bool.and_eq_true] at hwf
        obtain ⟨hwx, hwxs⟩ := hwf
        have h2 : sizeLItems (LJsonItems.cons x xs2)
            = 1 + sizeL x + sizeLItems xs2 := rfl
        show (wfJ (mungeJ x) && wfJItems (mungeItems xs2)) = true
        simp only [Bool.and_eq_true]
        exact ⟨ihv x hwx (by omega), ihi xs2 hwxs (by omega)⟩
    · intro kvs hwf h
      cases kvs with
      | nil => rfl
      | cons k v kvs2 =>
        have h1 : wfLFields (LJsonFields.cons k v kvs2)
            = ((wfStr k && wfL v) && wfLFields kvs2) := rfl
        rw [h1] at hwf
        simp only [Bool.and_eq_true] at hwf
        obtain ⟨⟨hwk, hwv⟩, hwkvs⟩ := hwf
        have h2 : sizeLFields (LJsonFields.cons k v kvs2)
            = 1 + sizeL v + sizeLFields kvs2 := rfl
        show ((wfStr (mungeStr k) && wfJ (mungeJ v)) &&
          wfJFields (mungeFields kvs2)) = true
        simp only [Bool.and_eq_true]
        exact ⟨⟨mungeStr_wf k hwk, ihv v hwv (by omega)⟩,
          ihf kvs2 hwkvs (by omega)⟩

theorem rTC_print_all (N : Nat) :
    (∀ v t, wfL v = true → sizeL v ≤ N →
      removeTrailingCommas (printL v ++ t)
        = printJ (mungeJ v) ++ removeTrailingCommas t) ∧
    (∀ xs t, wfLItems xs = true → sizeLItems xs ≤ N →
      removeTrailingCommas (printLItems xs ++ t)
        = printJItems (mungeItems xs) ++ removeTrailingCommas t) ∧
    (∀ kvs t, wfLFields kvs = true → sizeLFields kvs ≤ N →
      removeTrailingCommas (printLFields kvs ++ t)
        = printJFields (mungeFields kvs) ++ removeTrailingCommas t) := by
  induction N with
  | zero =>
    refine ⟨?_, ?_, ?_⟩
    · intro v t _ hv
      exact absurd hv (by have := sizeL_pos v; omega)
    · intro xs t _ h
      cases xs with
      | nil => rfl
      | cons x xs2 =>
        exact absurd h (by
          have h1 : sizeLItems (LJsonItems.cons x xs2)
              = 1 + sizeL x + sizeLItems xs2 := rfl
          omega)
    · intro kvs t _ h
      cases kvs with
      | nil => rfl
      | cons k v kvs2 =>
        exact absurd h (by
          have h1 : sizeLFields (LJsonFields.cons k v kvs2)
              = 1 + sizeL v + sizeLFields kvs2 := rfl
          omega)
  | succ N ih =>
    obtain ⟨ihv, ihi, ihf⟩ := ih
    refine ⟨?_, ?_, ?_⟩
    · intro v t hwf hsz
      cases v with
      | null =>
        exact rTC_skip ['n', 'u', 'l', 'l'] t (by decide)
      | bool b =>
        cases b with
        | true => exact rTC_skip ['t', 'r', 'u', 'e'] t (by decide)
        | false => exact rTC_skip ['f', 'a', 'l', 's', 'e'] t (by decide)
      | num n =>
        exact rTC_skip (natDigits n) t
          (fun c hc => digit_ne_comma c
            (natDigitsAux_all_digits (n + 1) n (Nat.le_refl _) c hc))
      | str s0 =>
        show removeTrailingCommas (('"' :: (escStr s0 ++ ['"'])) ++ t)
          = ('"' :: (escStr (mungeStr s0) ++ ['"'])) ++ removeTrailingCommas t
        rw [show ('"' :: (escStr s0 ++ ['"'])) ++ t
            = '"' :: (escStr s0 ++ '"' :: t) from by simp]
        rw [rTC_cons_ne '"' _ (by decide)]
        rw [rTC_escBody s0 t hwf]
        simp
      | arr xs f =>
        cases xs with
        | nil =>
          show removeTrailingCommas (['[', ']'] ++ t)
            = printJ (mungeJ (LJson.arr LJsonItems.nil f)) ++ removeTrailingCommas t
          rw [show (['[', ']'] : List Char) ++ t = '[' :: (']' :: t) from rfl]
          rw [rTC_cons_ne '[' _ (by decide), rTC_cons_ne ']' _ (by decide)]
          rfl
        | cons x xs2 =>
          have hsz2 : sizeLItems (LJsonItems.cons x xs2) ≤ N := by
            have h2 : sizeL (LJson.arr (LJsonItems.cons x xs2) f)
                = 1 + sizeLItems (LJsonItems.cons x xs2) := rfl
            omega
          show removeTrailingCommas
              (('[' :: (printLItems (LJsonItems.cons x xs2) ++
                ((if f then [','] else []) ++ [']']))) ++ t)
            = printJ (mungeJ (LJson.arr (LJsonItems.cons x xs2) f)) ++
                removeTrailingCommas t
          rw [show ('[' :: (printLItems (LJsonItems.cons x xs2) ++
                ((if f then [','] else []) ++ [']']))) ++ t
              = '[' :: (printLItems (LJsonItems.cons x xs2) ++
                (((if f then [','] else []) ++ [']']) ++ t)) from by simp]
          rw [rTC_cons_ne '[' _ (by decide)]
          rw [ihi (LJsonItems.cons x xs2)
            (((if f then [','] else []) ++ [']']) ++ t) hwf hsz2]
          have hT : removeTrailingCommas (((if f then [','] else []) ++ [']']) ++ t)
              = ']' :: removeTrailingCommas t := by
            cases f with
            | false =>
              rw [show ((if false then [','] else ([] : List Char)) ++ [']']) ++ t
                  = ']' :: t from by simp]
              rw [rTC_cons_ne ']' t (by decide)]
            | true =>
              rw [show ((if true then [','] else ([] : List Char)) ++ [']']) ++ t
                  = ',' :: (']' :: t) from by simp]
              rw [rTC_comma_drop (']' :: t) (wsThenCloser_closer ']' t (by decide))]
              rw [rTC_cons_ne ']' t (by decide)]
          rw [hT]
          simp [mungeJ, printJ]
      | obj kvs f =>
        cases kvs with
        | nil =>
          show removeTrailingCommas (['\x7b', '\x7d'] ++ t)
            = printJ (mungeJ (LJson.obj LJsonFields.nil f)) ++ removeTrailingCommas t
          rw [show (['\x7b', '\x7d'] : List Char) ++ t = '\x7b' :: ('\x7d' :: t) from rfl]
          rw [rTC_cons_ne '\x7b' _ (by decide), rTC_cons_ne '\x7d' _ (by decide)]
          rfl
        | cons k v kvs2 =>
          have hsz2 : sizeLFields (LJsonFields.cons k v kvs2) ≤ N := by
            have h2 : sizeL (LJson.obj (LJsonFields.cons k v kvs2) f)
                = 1 + sizeLFields (LJsonFields.cons k v kvs2) := rfl
            omega
          show removeTrailingCommas
              (('\x7b' :: (printLFields (LJsonFields.cons k v kvs2) ++
                ((if f then [','] else []) ++ ['\x7d']))) ++ t)
            = printJ (mungeJ (LJson.obj (LJsonFields.cons k v kvs2) f)) ++
                removeTrailingCommas t
          rw [show ('\x7b' :: (printLFields (LJsonFields.cons k v kvs2) ++
                ((if f then [','] else []) ++ ['\x7d']))) ++ t
              = '\x7b' :: (printLFields (LJsonFields.cons k v kvs2) ++
                (((if f then [','] else []) ++ ['\x7d']) ++ t)) from by simp]
          rw [rTC_cons_ne '\x7b' _ (by decide)]
          rw [ihf (LJsonFields.cons k v kvs2)
            (((if f then [','] else []) ++ ['\x7d']) ++ t) hwf hsz2]
          have hT : removeTrailingCommas (((if f then [','] else []) ++ ['\x7d']) ++ t)
              = '\x7d' :: removeTrailingCommas t := by
            cases f with
            | false =>
              rw [show ((if false then [','] else ([] : List Char)) ++ ['\x7d']) ++ t
                  = '\x7d' :: t from by simp]
              rw [rTC_cons_ne '\x7d' t (by decide)]
            | true =>
              rw [show ((if true then [','] else ([] : List Char)) ++ ['\x7d']) ++ t
                  = ',' :: ('\x7d' :: t) from by simp]
              rw [rTC_comma_drop ('\x7d' :: t) (wsThenCloser_closer '\x7d' t (by decide))]
              rw [rTC_cons_ne '\x7d' t (by decide)]
          rw [hT]
          simp [mungeJ, printJ]
    · intro xs t hwf hsz
      cases xs with
      | nil => rfl
      | cons x xs2 =>
        have h1 : wfLItems (LJsonItems.cons x xs2) = (wfL x && wfLItems xs2) := rfl
        rw [h1] at hwf
        simp only [Bool.and_eq_true] at hwf
        obtain ⟨hwx, hwxs⟩ := hwf
        have h2 : sizeLItems (LJsonItems.cons x xs2)
            = 1 + sizeL x + sizeLItems xs2 := rfl
        have hszx : sizeL x ≤ N := by omega
        have hszxs : sizeLItems xs2 ≤ N := by omega
        cases xs2 with
        | nil =>
          show removeTrailingCommas (printL x ++ t)
            = printJ (mungeJ x) ++ removeTrailingCommas t
          exact ihv x t hwx hszx
        | cons y ys =>
          rcases printLItems_head y ys with ⟨c, cs, heq, hnc, hw4, hwp, hcl, _, _⟩
          rw [show printLItems (LJsonItems.cons x (LJsonItems.cons y ys)) ++ t
              = printL x ++ ',' :: (printLItems (LJsonItems.cons y ys) ++ t) from by
            rw [show printLItems (LJsonItems.cons x (LJsonItems.cons y ys))
                = printL x ++ ',' :: printLItems (LJsonItems.cons y ys) from rfl]
            simp]
          rw [ihv x (',' :: (printLItems (LJsonItems.cons y ys) ++ t)) hwx hszx]
          have hk : wsThenCloser (printLItems (LJsonItems.cons y ys) ++ t) = false := by
            rw [heq]
            rw [show (c :: cs) ++ t = c :: (cs ++ t) from rfl]
            exact wsThenCloser_other c (cs ++ t) hcl hwp
          rw [rTC_comma_keep _ hk]
          rw [ihi (LJsonItems.cons y ys) t hwxs hszxs]
          simp [mungeItems, printJItems]
    · intro kvs t hwf hsz
      cases kvs with
      | nil => rfl
      | cons k v kvs2 =>
        have h1 : wfLFields (LJsonFields.cons k v kvs2)
            = ((wfStr k && wfL v) && wfLFields kvs2) := rfl
        rw [h1] at hwf
        simp only [Bool.and_eq_true] at hwf
        obtain ⟨⟨hwk, hwv⟩, hwkvs⟩ := hwf
        have h2 : sizeLFields (LJsonFields.cons k v kvs2)
            = 1 + sizeL v + sizeLFields kvs2 := rfl
        have hszv : sizeL v ≤ N := by omega
        have hszkvs : sizeLFields kvs2 ≤ N := by omega
        cases kvs2 with
        | nil =>
          rw [show printLFields (LJsonFields.cons k v LJsonFields.nil) ++ t
              = '"' :: (escStr k ++ '"' :: ':' :: (printL v ++ t)) from by
            rw [show printLFields (LJsonFields.cons k v LJsonFields.nil)
                = '"' :: (escStr k ++ '"' :: ':' :: printL v) from rfl]
            simp]
          rw [rTC_cons_ne '"' _ (by decide)]
          rw [rTC_escBody k (':' :: (printL v ++ t)) hwk]
          rw [rTC_cons_ne ':' _ (by decide)]
          rw [ihv v t hwv hszv]
          simp [mungeFields, printJFields]
        | cons k2 v2 ks =>
          have hq : ∃ cs, printLFields (LJsonFields.cons k2 v2 ks) = '"' :: cs := by
            cases ks with
            | nil => exact ⟨_, rfl⟩
            | cons k3 v3 ks3 => exact ⟨_, rfl⟩
          obtain ⟨cs, hcs⟩ := hq
          rw [show printLFields (LJsonFields.cons k v (LJsonFields.cons k2 v2 ks)) ++ t
              = '"' :: (escStr k ++ '"' :: ':' :: (printL v ++ ',' ::
                  (printLFields (LJsonFields.cons k2 v2 ks) ++ t))) from by
            rw [show printLFields (LJsonFields.cons k v (LJsonFields.cons k2 v2 ks))
                = ('"' :: (escStr k ++ '"' :: ':' :: printL v)) ++
                  ',' :: printLFields (LJsonFields.cons k2 v2 ks) from rfl]
            simp]
          rw [rTC_cons_ne '"' _ (by decide)]
          rw [rTC_escBody k
            (':' :: (printL v ++ ',' ::
              (printLFields (LJsonFields.cons k2 v2 ks) ++ t))) hwk]
          rw [rTC_cons_ne ':' _ (by decide)]
          rw [ihv v (',' ::
            (printLFields (LJsonFields.cons k2 v2 ks) ++ t)) hwv hszv]
          have hk2 : wsThenCloser (printLFields (LJsonFields.cons k2 v2 ks) ++ t)
              = false := by
            rw [hcs]
            rw [show ('"' :: cs) ++ t = '"' :: (cs ++ t) from rfl]
            exact wsThenCloser_other '"' (cs ++ t) (by decide) (by decide)
          rw [rTC_comma_keep _ hk2]
          rw [ihf (LJsonFields.cons k2 v2 ks) t hwkvs hszkvs]
          simp [mungeFields, printJFields]

theorem parseJson_print (v : Json) (h : wfJ v = true) :
    parseJson (printJ v) = some v := by
  have hb := (sizeJ_le_printJ (sizeJN v)).1 v (Nat.le_refl _)
  have hp := (parse_print_all ((printJ v).length + 1)).1 v [] h (by omega)
    (tailOkB_nil v)
  rw [show printJ v ++ [] = printJ v from by simp] at hp
  unfold parseJson
  rw [hp]
  rfl

/-- C9: a content-plan payload that is valid JSON except for trailing commas
immediately before a closing brace or bracket (modelled as the printed form
of any well-formed lenient AST, whose flags mark the trailing commas) parses
successfully after `removeTrailingCommas` — the embedding of
`re.sub(r',(\s*[}\]])', r'\1', ...)` at src/Summarise.py:79-81 — and the
value obtained is the AST's denotation (its trailing-comma flags dropped and
every string body munged by the same textual rule). -/
theorem trailing_commas_removed_payload_parses (ast : LJson)
    (h : wfL ast = true) :
    parseJson (removeTrailingCommas (printL ast)) = some (mungeJ ast) := by
  have h1 := (rTC_print_all (sizeL ast)).1 ast [] h (Nat.le_refl _)
  rw [show printL ast ++ [] = printL ast from by simp] at h1
  rw [show removeTrailingCommas ([] : List Char) = [] from rfl] at h1
  rw [show printJ (mungeJ ast) ++ [] = printJ (mungeJ ast) from by simp] at h1
  rw [h1]
  exact parseJson_print (mungeJ ast)
    ((munge_wf (sizeL ast)).1 ast h (Nat.le_refl _))

theorem trailing_commas_removed_payload_parses_witness :
    wfL (LJson.obj (LJsonFields.cons ['a'] (LJson.num 1) LJsonFields.nil)
      true) = true ∧
    printL (LJson.obj (LJsonFields.cons ['a'] (LJson.num 1) LJsonFields.nil)
      true) = "\x7b\"a\":1,\x7d".data ∧
    parseJson (removeTrailingCommas (printL (LJson.obj
        (LJsonFields.cons ['a'] (LJson.num 1) LJsonFields.nil) true)))
      = some (Json.obj (JsonFields.cons ['a'] (Json.num 1) JsonFields.nil)) := by
  refine ⟨by decide, by decide, ?_⟩
  exact trailing_commas_removed_payload_parses
    (LJson.obj (LJsonFields.cons ['a'] (LJson.num 1) LJsonFields.nil) true)
    (by decide)

/-- C10: the normalisation is purely textual and not JSON-aware — on the
already-valid payload `\x7b"a": "x, ]"\x7d`, whose string literal contains a
comma followed by whitespace and a closing bracket, `removeTrailingCommas`
deletes the comma inside the string literal, so the normalised payload
parses to a different value than the original. -/
theorem normalization_corrupts_string_literal :
    parseJson ("\x7b\"a\": \"x, ]\"\x7d".data)
      = some (Json.obj (JsonFields.cons ['a']
          (Json.str "x, ]".data) JsonFields.nil)) ∧
    parseJson (removeTrailingCommas ("\x7b\"a\": \"x, ]\"\x7d".data))
      = some (Json.obj (JsonFields.cons ['a']
          (Json.str "x ]".data) JsonFields.nil)) ∧
    parseJson ("\x7b\"a\": \"x, ]\"\x7d".data)
      ≠ parseJson (removeTrailingCommas ("\x7b\"a\": \"x, ]\"\x7d".data)) := by
  refine ⟨rfl, rfl, ?_⟩
  intro hcontra
  rw [show parseJson ("\x7b\"a\": \"x, ]\"\x7d".data)
      = some (Json.obj (JsonFields.cons ['a']
          (Json.str "x, ]".data) JsonFields.nil)) from rfl] at hcontra
  rw [show parseJson (removeTrailingCommas ("\x7b\"a\": \"x, ]\"\x7d".data))
      = some (Json.obj (JsonFields.cons ['a']
          (Json.str "x ]".data) JsonFields.nil)) from rfl] at hcontra
  simp only [Option.some.injEq] at hcontra
  injection hcontra with h1
  injection h1 with h2 h3 h4
  injection h3 with h5
  exact absurd h5 (by decide)
